import Mathlib

/-!
Formal model of the node-processing engine in `src/scip/solve.c`
(main solving loop and node processing of a constraint integer
programming solver).

The C functions are embedded shallowly: every function that the claims
mention is translated into an executable Lean definition that follows
the C control flow statement by statement.  Calls into collaborating
subsystems that live outside `solve.c` (the LP kernel, plug-ins,
stores, clocks, …) are modelled by explicit input records: each such
call site reads the outcome the external component would produce from
a per-call input value, so every theorem quantifies over all possible
behaviours of the collaborators.  Machine integers are modelled by
`Nat`/`Int` (the counters involved never overflow in the source) and
`SCIP_Real` by `ℚ`.  Fields whose name starts with `ghost` are proof
instrumentation only: they record that a call event happened and are
never read by the translated control flow.
-/

set_option autoImplicit false

namespace Scip

/-- `SCIP_STATUS` codes (pub_message / type_stat.h), as used by `solve.c`. -/
inductive Status where
  | UNKNOWN
  | USERINTERRUPT
  | NODELIMIT
  | STALLNODELIMIT
  | TIMELIMIT
  | MEMLIMIT
  | GAPLIMIT
  | SOLLIMIT
  | BESTSOLLIMIT
  | OPTIMAL
  | INFEASIBLE
  | UNBOUNDED
  | INFORUNBD
  deriving DecidableEq, Repr

/-- `SCIP_LPSOLSTAT` codes. -/
inductive LPSolstat where
  | NOTSOLVED
  | OPTIMAL
  | INFEASIBLE
  | UNBOUNDEDRAY
  | OBJLIMIT
  | ITERLIMIT
  | TIMELIMIT
  | ERROR
  deriving DecidableEq, Repr

/-- `SCIP_RESULT` codes returned by plug-ins. -/
inductive Result where
  | DIDNOTRUN
  | DELAYED
  | DIDNOTFIND
  | FEASIBLE
  | INFEASIBLE
  | SUCCESS
  | CUTOFF
  | SEPARATED
  | REDUCEDDOM
  | CONSADDED
  | BRANCHED
  | SOLVELP
  | SUSPENDED
  deriving DecidableEq, Repr

/-- Stage constants (`SCIP_STAGE_…`); only the order matters to `solve.c`,
so we fix representative numeric values respecting the header order. -/
def STAGE_PRESOLVED : Nat := 6

/-- Stage constant `SCIP_STAGE_SOLVING`; strictly above `SCIP_STAGE_PRESOLVED`. -/
def STAGE_SOLVING : Nat := 8

/-! ### Stop/Status monitor: `SCIPsolveIsStopped` (solve.c:64-118)

The arithmetic guards that `SCIPsolveIsStopped` obtains from external
collaborators (the solving clock, the memory counter and the
epsilon-comparison helpers of `set.c`, none of which are part of this
repository) are modelled as boolean fields of the state; the guards that
compare plain counter fields (`nnodes`, `nsolsfound`, …) are modelled by
the same integer comparisons the C code performs. -/

structure StopState where
  /-- `set->stage` -/
  stage : Nat
  /-- result of `SCIPsetIsLE(set, upperbound, lowerbound)` (external epsilon
  comparison of the global primal and dual bounds) -/
  upperLEQlower : Bool
  /-- `set->limitchanged` -/
  limitchanged : Bool
  /-- `stat->status` -/
  status : Status
  /-- result of `SCIPinterrupted()` (external signal handler flag) -/
  interrupted : Bool
  /-- `stat->userinterrupt` -/
  userinterrupt : Bool
  /-- `SCIPclockGetTime(stat->solvingtime) >= set->limit_time` (external clock) -/
  timeLimitHit : Bool
  /-- `SCIPgetMemUsed(scip) >= set->limit_memory*1048576.0` (external counter) -/
  memLimitHit : Bool
  /-- `SCIPsetIsLT(set, SCIPgetGap(scip), set->limit_gap)` (external) -/
  gapLimitHit : Bool
  /-- `SCIPsetIsLT(set, upperbound - lowerbound, set->limit_absgap)` (external) -/
  absgapLimitHit : Bool
  /-- `set->limit_solutions` -/
  limitSolutions : Int
  /-- `SCIPgetNSolsFound(scip)` -/
  nsolsfound : Int
  /-- `set->limit_bestsol` -/
  limitBestsol : Int
  /-- `SCIPgetNBestSolsFound(scip)` -/
  nbestsolsfound : Int
  /-- `set->limit_nodes` -/
  limitNodes : Int
  /-- `stat->nnodes` -/
  nnodes : Int
  /-- `set->limit_stallnodes` -/
  limitStallnodes : Int
  /-- `stat->bestsolnode` -/
  bestsolnode : Int
  deriving DecidableEq, Repr

/-- The status written by the `else if` chain of `SCIPsolveIsStopped`
(solve.c:79-109).  `stat->status` is first reset to `UNKNOWN` when
`set->limitchanged` holds; a branch of the chain overwrites it when its
guard fires, otherwise the value is kept. -/
def statusUpdate (s : StopState) (checknodelimits : Bool) : Status :=
  if s.interrupted || s.userinterrupt then Status.USERINTERRUPT
  else if s.timeLimitHit then Status.TIMELIMIT
  else if s.memLimitHit then Status.MEMLIMIT
  else if decide (STAGE_SOLVING ≤ s.stage) && s.gapLimitHit then Status.GAPLIMIT
  else if decide (STAGE_SOLVING ≤ s.stage) && s.absgapLimitHit then Status.GAPLIMIT
  else if decide (0 ≤ s.limitSolutions) && decide (STAGE_PRESOLVED ≤ s.stage) &&
      decide (s.limitSolutions ≤ s.nsolsfound) then Status.SOLLIMIT
  else if decide (0 ≤ s.limitBestsol) && decide (STAGE_PRESOLVED ≤ s.stage) &&
      decide (s.limitBestsol ≤ s.nbestsolsfound) then Status.BESTSOLLIMIT
  else if checknodelimits && decide (0 ≤ s.limitNodes) &&
      decide (s.limitNodes ≤ s.nnodes) then Status.NODELIMIT
  else if checknodelimits && decide (0 ≤ s.limitStallnodes) &&
      decide (s.bestsolnode + s.limitStallnodes ≤ s.nnodes) then Status.STALLNODELIMIT
  else if s.limitchanged then Status.UNKNOWN else s.status

/-- `SCIPsolveIsStopped(set, stat, checknodelimits)` (solve.c:64-118).
Returns the boolean result together with the updated state
(`stat->status`, `set->limitchanged`, `stat->userinterrupt` are
written; `stat->userinterrupt` is consumed exactly by the branch that
reports it). -/
def SCIPsolveIsStopped (s : StopState) (checknodelimits : Bool) : Bool × StopState :=
  -- `if( set->stage >= SCIP_STAGE_SOLVING && SCIPsetIsLE(set, upper, lower) ) return FALSE;`
  if decide (STAGE_SOLVING ≤ s.stage) && s.upperLEQlower then
    (false, s)
  else
    let status := statusUpdate s checknodelimits
    let s' : StopState :=
      { s with status := status, limitchanged := false,
               userinterrupt := if s.interrupted || s.userinterrupt then false
                 else s.userinterrupt }
    if checknodelimits then
      (decide (status ≠ Status.UNKNOWN), s')
    else
      (decide (status ≠ Status.UNKNOWN) && decide (status ≠ Status.NODELIMIT) &&
        decide (status ≠ Status.STALLNODELIMIT), s')

/-- The status-priority chain as the specification words it: the ordered
list of (guard, status) pairs; the node limits participate only when
`checknodelimits` is set. -/
def stopPriorityChain (s : StopState) (checknodelimits : Bool) : List (Bool × Status) :=
  [ (s.interrupted || s.userinterrupt, Status.USERINTERRUPT),
    (s.timeLimitHit, Status.TIMELIMIT),
    (s.memLimitHit, Status.MEMLIMIT),
    (decide (STAGE_SOLVING ≤ s.stage) && s.gapLimitHit, Status.GAPLIMIT),
    (decide (STAGE_SOLVING ≤ s.stage) && s.absgapLimitHit, Status.GAPLIMIT),
    (decide (0 ≤ s.limitSolutions) && decide (STAGE_PRESOLVED ≤ s.stage) &&
      decide (s.limitSolutions ≤ s.nsolsfound), Status.SOLLIMIT),
    (decide (0 ≤ s.limitBestsol) && decide (STAGE_PRESOLVED ≤ s.stage) &&
      decide (s.limitBestsol ≤ s.nbestsolsfound), Status.BESTSOLLIMIT) ] ++
  (if checknodelimits then
    [ (decide (0 ≤ s.limitNodes) && decide (s.limitNodes ≤ s.nnodes), Status.NODELIMIT),
      (decide (0 ≤ s.limitStallnodes) &&
        decide (s.bestsolnode + s.limitStallnodes ≤ s.nnodes), Status.STALLNODELIMIT) ]
   else [])

/-- The status the specification sentence predicts: the first matching
limit of the priority chain, the previous status (reset to `UNKNOWN` on
`limitchanged`) when no limit matches. -/
def statusSpec (s : StopState) (checknodelimits : Bool) : Status :=
  match (stopPriorityChain s checknodelimits).find? (fun p => p.1) with
  | some p => p.2
  | none => if s.limitchanged then Status.UNKNOWN else s.status

/-- A state in the solving stage with the duality gap already closed
(`upperbound ≤ lowerbound`) and the time limit exceeded. -/
def stopStateC2 : StopState :=
  { stage := STAGE_SOLVING, upperLEQlower := true, limitchanged := false,
    status := Status.UNKNOWN, interrupted := false, userinterrupt := false,
    timeLimitHit := true, memLimitHit := false, gapLimitHit := false,
    absgapLimitHit := false, limitSolutions := -1, nsolsfound := 0,
    limitBestsol := -1, nbestsolsfound := 0, limitNodes := -1, nnodes := 0,
    limitStallnodes := -1, bestsolnode := 0 }

/-- C2, counterexample.  On a state in the solving stage whose upper bound
is already at most its lower bound, `SCIPsolveIsStopped` returns `false`
without recomputing the status, although the time limit is hit — the
claim predicts that the status is set to the first matching limit
(`TIMELIMIT`) and that `status ≠ UNKNOWN` is returned. -/
theorem SCIPsolveIsStopped_claim_false :
    (SCIPsolveIsStopped stopStateC2 true).1 = false ∧
    (SCIPsolveIsStopped stopStateC2 true).2.status = Status.UNKNOWN ∧
    stopStateC2.timeLimitHit = true ∧
    statusSpec stopStateC2 true = Status.TIMELIMIT := by
  decide

set_option maxHeartbeats 4000000 in
/-- The nested `else if` chain of the source computes exactly the
first-matching-limit status of the specification's priority list. -/
theorem statusUpdate_eq_statusSpec (s : StopState) (b : Bool) :
    statusUpdate s b = statusSpec s b := by
  unfold statusUpdate statusSpec stopPriorityChain
  cases b <;>
    simp only [Bool.false_and, Bool.true_and, if_true, if_false,
      List.cons_append, List.nil_append, List.append_nil] <;>
  cases h1 : (s.interrupted || s.userinterrupt) <;>
  cases h2 : s.timeLimitHit <;>
  cases h3 : s.memLimitHit <;>
  cases h4 : (decide (STAGE_SOLVING ≤ s.stage) && s.gapLimitHit) <;>
  cases h5 : (decide (STAGE_SOLVING ≤ s.stage) && s.absgapLimitHit) <;>
  cases h6 : (decide (0 ≤ s.limitSolutions) && decide (STAGE_PRESOLVED ≤ s.stage) &&
    decide (s.limitSolutions ≤ s.nsolsfound)) <;>
  cases h7 : (decide (0 ≤ s.limitBestsol) && decide (STAGE_PRESOLVED ≤ s.stage) &&
    decide (s.limitBestsol ≤ s.nbestsolsfound)) <;>
  cases h8 : (decide (0 ≤ s.limitNodes) && decide (s.limitNodes ≤ s.nnodes)) <;>
  cases h9 : (decide (0 ≤ s.limitStallnodes) &&
    decide (s.bestsolnode + s.limitStallnodes ≤ s.nnodes)) <;>
  simp [List.find?_cons]

/-- C2, amended.  Except when the solver is at least in the solving stage
and the upper bound is at most the lower bound — in which case
`SCIPsolveIsStopped` returns `false` and leaves the state untouched — the
status is recomputed to the first matching limit of the priority chain
user interrupt, time limit, memory limit, gap, absolute gap, solution
limit, best-solution limit, and (only when `checknodelimits`) node limit
then stall-node limit, falling back to the previous status (reset to
`UNKNOWN` when limits were changed); the call returns `status ≠ UNKNOWN`,
masking out `NODELIMIT`/`STALLNODELIMIT` when `checknodelimits` is
false. -/
theorem SCIPsolveIsStopped_spec (s : StopState) (checknodelimits : Bool)
    (h : ¬(STAGE_SOLVING ≤ s.stage ∧ s.upperLEQlower = true)) :
    (SCIPsolveIsStopped s checknodelimits).2.status = statusSpec s checknodelimits ∧
    (SCIPsolveIsStopped s checknodelimits).1 =
      (if checknodelimits then
        decide (statusSpec s checknodelimits ≠ Status.UNKNOWN)
       else
        decide (statusSpec s checknodelimits ≠ Status.UNKNOWN) &&
        decide (statusSpec s checknodelimits ≠ Status.NODELIMIT) &&
        decide (statusSpec s checknodelimits ≠ Status.STALLNODELIMIT)) := by
  have h0 : (decide (STAGE_SOLVING ≤ s.stage) && s.upperLEQlower) = false := by
    cases hu : s.upperLEQlower
    · simp
    · simp only [Bool.and_true]
      exact decide_eq_false (fun hs => h ⟨hs, hu⟩)
  unfold SCIPsolveIsStopped
  rw [h0, statusUpdate_eq_statusSpec]
  cases checknodelimits <;> simp

/-- Witness for `SCIPsolveIsStopped_spec` at a concrete state outside the
early-return case. -/
theorem SCIPsolveIsStopped_spec_witness :
    (SCIPsolveIsStopped { stopStateC2 with upperLEQlower := false } true).2.status =
      statusSpec { stopStateC2 with upperLEQlower := false } true :=
  (SCIPsolveIsStopped_spec { stopStateC2 with upperLEQlower := false } true
    (by decide)).1

/-! ### Price loop: `SCIPpriceLoop` (solve.c:1277-1450)

`SCIPpriceLoop` repeatedly prices problem variables and calls the active
external pricers until no more variables have to be priced, an LP error
occurs, or the round limit is hit.  The external collaborators of one
round (the stop monitor, the pricestore, the LP kernel, the pricer
plug-ins) are modelled by a `PriceRoundExt` input record per round. -/

/-- `INT_MAX` of the 32-bit `int` type used by the counters of `solve.c`. -/
def INT_MAX : Int := 2147483647

/-- Outcome of one `SCIPpricerExec` call: the lower bound it reports,
whether its result was `SCIP_DIDNOTRUN` (otherwise `SCIP_SUCCESS`,
solve.c:1376), and the number of variables in the pricestore after the
call. -/
structure PricerCall where
  lb : ℚ
  didnotrun : Bool
  nvarsAfter : Nat
  deriving DecidableEq, Repr

/-- Accumulator of the loop over external pricers. -/
structure ExtPriceState where
  aborted : Bool
  lowerbound : ℚ
  ghostNCalls : Nat
  deriving DecidableEq, Repr

/-- The loop over the active external pricers (solve.c:1371-1382): each
pricer is called while `enoughvars` is still false; `enoughvars` is
initialized by the caller from `nvars ≥ maxvars/2 + 1` and updated after
each call from `nvars ≥ (maxvars+1)/2`; a `DIDNOTRUN` result latches
`aborted` and the reported lower bounds are accumulated by `MAX`.
`ghostNCalls` counts the pricer invocations (instrumentation only). -/
def extPricerLoop (maxvars : Nat) (enoughvars : Bool) (st : ExtPriceState) :
    List PricerCall → ExtPriceState
  | [] => st
  | p :: ps =>
    if enoughvars then st
    else
      extPricerLoop maxvars (decide ((maxvars + 1) / 2 ≤ p.nvarsAfter))
        { aborted := st.aborted || p.didnotrun,
          lowerbound := max st.lowerbound p.lb,
          ghostNCalls := st.ghostNCalls + 1 } ps

/-- Number of external pricers the loop invokes (same gating as
`extPricerLoop`, used to state its properties). -/
def extCalls (maxvars : Nat) (enoughvars : Bool) : List PricerCall → Nat
  | [] => 0
  | p :: ps =>
    if enoughvars then 0
    else 1 + extCalls maxvars (decide ((maxvars + 1) / 2 ≤ p.nvarsAfter)) ps

/-- External outcomes of one round of the pricing loop
(solve.c:1335-1439): the stop-monitor answer, the state of the problem
and the pricestore after problem-variable pricing, the pricer plug-in
outcomes, and the LP kernel answers of the two `SCIPlpSolveAndEval`
calls of the round. -/
structure PriceRoundExt where
  /-- `SCIPsolveIsStopped(set, stat, FALSE)` (solve.c:1348) -/
  stopped : Bool
  /-- `prob->ncolvars` after `SCIPpricestoreAddProbVars` (solve.c:1362-1363) -/
  ncolvarsAfterProbPricing : Nat
  /-- `SCIPpricestoreGetNVars(pricestore)` before the external pricers -/
  nvarsAfterProbPricing : Nat
  /-- outcomes of the (priority-sorted) active external pricers -/
  pricers : List PricerCall
  /-- `lp->flushed` after `SCIPpricestoreApplyVars` (solve.c:1385) -/
  flushedAfterApply : Bool
  /-- `prob->ncolvars` after `SCIPpricestoreApplyVars` -/
  ncolvarsAfterApply : Nat
  /-- `*lperror` of the first `SCIPlpSolveAndEval` (solve.c:1395) -/
  lperror1 : Bool
  /-- `SCIPlpGetSolstat(lp)` after the first solve -/
  solstat1 : LPSolstat
  /-- `lp->flushed` after `SCIPpricestoreResetBounds` and `initConssLP` -/
  flushedAfterInitConss : Bool
  /-- `*lperror` of the second `SCIPlpSolveAndEval` (solve.c:1415) -/
  lperror2 : Bool
  /-- `SCIPlpGetSolstat(lp)` after the second solve -/
  solstat2 : LPSolstat
  deriving DecidableEq, Repr

/-- State of `SCIPpriceLoop` threaded through the pricing rounds. -/
structure PriceLoopState where
  npricerounds : Nat
  mustprice : Bool
  aborted : Bool
  lperror : Bool
  mustsepa : Bool
  lowerbound : ℚ
  npricedcolvars : Nat
  ncolvars : Nat
  solstat : LPSolstat
  deriving DecidableEq, Repr

/-- Whether a pricing round sets the `aborted` latch: either the stop
monitor interrupts pricing (solve.c:1348-1353) or a called external
pricer returns `DIDNOTRUN` (solve.c:1380). -/
def roundAborts (maxvars : Nat) (e : PriceRoundExt) : Bool :=
  e.stopped ||
    (extPricerLoop maxvars (decide (maxvars / 2 + 1 ≤ e.nvarsAfterProbPricing))
      ⟨false, 0, 0⟩ e.pricers).aborted

/-- Body of one non-interrupted pricing round (solve.c:1355-1438). -/
def priceRoundBody (maxvars : Nat) (st : PriceLoopState) (e : PriceRoundExt) :
    PriceLoopState :=
  -- `SCIPpricestoreAddProbVars(…); *npricedcolvars = prob->ncolvars;`
  let st := { st with ncolvars := e.ncolvarsAfterProbPricing,
                      npricedcolvars := e.ncolvarsAfterProbPricing }
  -- external pricer loop (solve.c:1371-1382)
  let ext := extPricerLoop maxvars
    (decide (maxvars / 2 + 1 ≤ e.nvarsAfterProbPricing))
    ⟨st.aborted, st.lowerbound, 0⟩ e.pricers
  let st := { st with aborted := ext.aborted, lowerbound := ext.lowerbound }
  -- `SCIPpricestoreApplyVars(…)` and the first must-price update
  let st := { st with ncolvars := e.ncolvarsAfterApply }
  let st := { st with
    mustprice := !e.flushedAfterApply ||
      decide (e.ncolvarsAfterApply ≠ st.npricedcolvars),
    mustsepa := st.mustsepa || !e.flushedAfterApply }
  -- first `SCIPlpSolveAndEval` (solve.c:1395)
  let st := { st with lperror := e.lperror1, solstat := e.solstat1 }
  -- `SCIPpricestoreResetBounds`, `initConssLP`, second must-price update
  let st := { st with
    mustprice := st.mustprice || !e.flushedAfterInitConss ||
      decide (st.ncolvars ≠ st.npricedcolvars),
    mustsepa := st.mustsepa || !e.flushedAfterInitConss }
  -- second `SCIPlpSolveAndEval` (solve.c:1415)
  let st := { st with lperror := e.lperror2, solstat := e.solstat2 }
  -- `npricerounds++` and the unbounded check (solve.c:1421, 1434-1437)
  let st := { st with npricerounds := st.npricerounds + 1 }
  { st with
    mustprice := st.mustprice && decide (st.solstat = LPSolstat.OPTIMAL ∨
      st.solstat = LPSolstat.INFEASIBLE ∨ st.solstat = LPSolstat.OBJLIMIT) }

/-- The `while` loop of `SCIPpriceLoop` (solve.c:1335-1439).  Returns the
final state together with the list of consumed round inputs (the rounds
that actually started executing). -/
def priceLoopRounds (maxvars : Nat) (maxpricerounds : Int) (st : PriceLoopState) :
    List PriceRoundExt → PriceLoopState × List PriceRoundExt
  | [] => (st, [])
  | e :: es =>
    -- `while( !(*lperror) && mustprice && npricerounds < maxpricerounds )`
    if st.lperror || !st.mustprice || decide (maxpricerounds ≤ (st.npricerounds : Int)) then
      (st, [])
    -- `if( SCIPsolveIsStopped(set, stat, FALSE) ) { *aborted = TRUE; break; }`
    else if e.stopped then
      ({ st with aborted := true }, [e])
    else
      let r := priceLoopRounds maxvars maxpricerounds (priceRoundBody maxvars st e) es
      (r.1, e :: r.2)

/-- `SCIPpriceLoop(…)` (solve.c:1277-1450).  Arguments carry the initial
LP state (`solstat`, `prob->ncolvars`, `SCIPprobAllColsInLP`), the in/out
parameters (`mustsepa`, `lowerbound`) and the trace of round inputs.
Returns `(final state, lp.isRelax)`. -/
def SCIPpriceLoop (maxvars : Nat) (maxpricerounds : Int) (ncolvars0 : Nat)
    (solstat0 : LPSolstat) (allColsInLP : Bool) (mustsepa0 : Bool)
    (lowerbound0 : ℚ) (trace : List PriceRoundExt) :
    PriceLoopState × Bool :=
  -- `mustprice = solstat ∈ {OPTIMAL, INFEASIBLE, OBJLIMIT} && !allColsInLP`
  let mustprice0 := decide (solstat0 = LPSolstat.OPTIMAL ∨
    solstat0 = LPSolstat.INFEASIBLE ∨ solstat0 = LPSolstat.OBJLIMIT) && !allColsInLP
  -- `if( maxpricerounds == -1 ) maxpricerounds = INT_MAX;`
  let mpr : Int := if maxpricerounds = -1 then INT_MAX else maxpricerounds
  let st0 : PriceLoopState :=
    { npricerounds := 0, mustprice := mustprice0, aborted := false,
      lperror := false, mustsepa := mustsepa0, lowerbound := lowerbound0,
      npricedcolvars := ncolvars0, ncolvars := ncolvars0, solstat := solstat0 }
  let st := (priceLoopRounds maxvars mpr st0 trace).1
  -- `*aborted = (*aborted || *lperror || solstat ∈ {NOTSOLVED, ERROR}
  --             || npricerounds == maxpricerounds);`
  let aborted := st.aborted || st.lperror ||
    decide (st.solstat = LPSolstat.NOTSOLVED) ||
    decide (st.solstat = LPSolstat.ERROR) ||
    decide ((st.npricerounds : Int) = mpr)
  -- `SCIPlpSetIsRelax(lp, !(*aborted));`
  ({ st with aborted := aborted }, !aborted)

/-- The `ghostNCalls` instrumentation counter of the external pricer loop
advances by exactly `extCalls`. -/
theorem extPricerLoop_ghostNCalls (maxvars : Nat) :
    ∀ (ps : List PricerCall) (en a : Bool) (lb : ℚ) (n : Nat),
      (extPricerLoop maxvars en ⟨a, lb, n⟩ ps).ghostNCalls = n + extCalls maxvars en ps := by
  intro ps
  induction ps with
  | nil => intro en a lb n; simp [extPricerLoop, extCalls]
  | cons p ps ih =>
    intro en a lb n
    unfold extPricerLoop extCalls
    cases en
    · simp only [Bool.false_eq_true, if_false, ih]
      omega
    · simp

/-- The `aborted` out-flag of the external pricer loop latches exactly on
a `DIDNOTRUN` of one of the called pricers. -/
theorem extPricerLoop_aborted (maxvars : Nat) :
    ∀ (ps : List PricerCall) (en a : Bool) (lb : ℚ) (n : Nat),
      (extPricerLoop maxvars en ⟨a, lb, n⟩ ps).aborted =
        (a || (ps.take (extCalls maxvars en ps)).any (fun q => q.didnotrun)) := by
  intro ps
  induction ps with
  | nil => intro en a lb n; simp [extPricerLoop, extCalls]
  | cons p ps ih =>
    intro en a lb n
    unfold extPricerLoop extCalls
    cases en
    · simp only [Bool.false_eq_true, if_false, ih]
      simp [List.take_cons, Bool.or_assoc]
    · simp

/-- The `lowerbound` out-value of the external pricer loop is the running
maximum over the called pricers. -/
theorem extPricerLoop_lowerbound (maxvars : Nat) :
    ∀ (ps : List PricerCall) (en a : Bool) (lb : ℚ) (n : Nat),
      (extPricerLoop maxvars en ⟨a, lb, n⟩ ps).lowerbound =
        (ps.take (extCalls maxvars en ps)).foldl (fun acc q => max acc q.lb) lb := by
  intro ps
  induction ps with
  | nil => intro en a lb n; simp [extPricerLoop, extCalls]
  | cons p ps ih =>
    intro en a lb n
    unfold extPricerLoop extCalls
    cases en
    · simp only [Bool.false_eq_true, if_false, ih]
      simp [List.take_cons]
    · simp

/-- Gating of the external pricer loop: pricer `i` is invoked iff the
loop was entered (`enoughvars` initially false) and every earlier pricer
left fewer than `(maxvars+1)/2` variables in the pricestore. -/
theorem extCalls_lt_iff (maxvars : Nat) :
    ∀ (ps : List PricerCall) (en : Bool) (i : Nat), i < ps.length →
      (i < extCalls maxvars en ps ↔
        (en = false ∧
          (ps.take i).all (fun q => decide (q.nvarsAfter < (maxvars + 1) / 2)))) := by
  intro ps
  induction ps with
  | nil => intro en i h; simp at h
  | cons p ps ih =>
    intro en i h
    unfold extCalls
    cases en
    · cases i with
      | zero => simp
      | succ i =>
        have hi : i < ps.length := by simpa using Nat.lt_of_succ_lt_succ h
        have hIH := ih (decide ((maxvars + 1) / 2 ≤ p.nvarsAfter)) i hi
        have harith : i + 1 < 1 + extCalls maxvars
            (decide ((maxvars + 1) / 2 ≤ p.nvarsAfter)) ps ↔
            i < extCalls maxvars (decide ((maxvars + 1) / 2 ≤ p.nvarsAfter)) ps := by
          omega
        simp only [Bool.false_eq_true, if_false, List.take_succ_cons, List.all_cons]
        rw [harith, hIH]
        cases hp : decide ((maxvars + 1) / 2 ≤ p.nvarsAfter) <;> simp_all
    · simp

/-- C6, counterexample.  With `maxvars = 4` and an empty pricestore, the
first pricer leaves 2 variables in the store; the loop then stops
(`2 ≥ (4+1)/2`) and the second pricer is never invoked, although the
store still holds fewer than `maxvars/2 + 1 = 3` variables — under the
claim's characterisation of `enough_vars`, the second pricer would have
been called. -/
theorem extPricerLoop_claim_false :
    (extPricerLoop 4 (decide (4 / 2 + 1 ≤ 0)) ⟨false, 0, 0⟩
      [⟨5, false, 2⟩, ⟨7, true, 3⟩]).ghostNCalls = 1 ∧
    (2 < 4 / 2 + 1) := by
  decide

/-- C6, amended.  In a pricing round the external pricers are processed
in their (priority-sorted) order; pricer `i` is invoked iff initially
fewer than `maxvars/2 + 1` variables were in the pricestore and every
earlier invocation left fewer than `(maxvars+1)/2` variables in it; the
reported lower bounds of the called pricers are accumulated by taking
the maximum, and a `DIDNOTRUN` result of a called pricer sets the
`aborted` latch. -/
theorem extPricerLoop_spec (maxvars nvars0 : Nat) (ab0 : Bool) (lb0 : ℚ)
    (ps : List PricerCall) :
    (∀ i, i < ps.length →
      (i < (extPricerLoop maxvars (decide (maxvars / 2 + 1 ≤ nvars0))
          ⟨ab0, lb0, 0⟩ ps).ghostNCalls ↔
        (nvars0 < maxvars / 2 + 1 ∧
          (ps.take i).all (fun q => decide (q.nvarsAfter < (maxvars + 1) / 2))))) ∧
    (extPricerLoop maxvars (decide (maxvars / 2 + 1 ≤ nvars0))
        ⟨ab0, lb0, 0⟩ ps).lowerbound =
      (ps.take (extCalls maxvars (decide (maxvars / 2 + 1 ≤ nvars0)) ps)).foldl
        (fun acc q => max acc q.lb) lb0 ∧
    (extPricerLoop maxvars (decide (maxvars / 2 + 1 ≤ nvars0))
        ⟨ab0, lb0, 0⟩ ps).aborted =
      (ab0 || (ps.take (extCalls maxvars (decide (maxvars / 2 + 1 ≤ nvars0)) ps)).any
        (fun q => q.didnotrun)) := by
  refine ⟨fun i hi => ?_,
    extPricerLoop_lowerbound maxvars ps (decide (maxvars / 2 + 1 ≤ nvars0)) ab0 lb0 0,
    extPricerLoop_aborted maxvars ps (decide (maxvars / 2 + 1 ≤ nvars0)) ab0 lb0 0⟩
  rw [extPricerLoop_ghostNCalls maxvars ps (decide (maxvars / 2 + 1 ≤ nvars0)) ab0 lb0 0,
    Nat.zero_add, extCalls_lt_iff maxvars ps (decide (maxvars / 2 + 1 ≤ nvars0)) i hi]
  cases hq : decide (maxvars / 2 + 1 ≤ nvars0) <;> simp_all

/-- Witness for `extPricerLoop_spec`: with `maxvars = 10` and an empty
store, the first of two pricers is invoked. -/
theorem extPricerLoop_spec_witness :
    (0 < (extPricerLoop 10 (decide (10 / 2 + 1 ≤ 0)) ⟨false, 0, 0⟩
        [⟨5, false, 2⟩, ⟨7, true, 3⟩]).ghostNCalls ↔
      (0 < 10 / 2 + 1 ∧
        (([⟨5, false, 2⟩, ⟨7, true, 3⟩] : List PricerCall).take 0).all
          (fun q => decide (q.nvarsAfter < (10 + 1) / 2)))) :=
  (extPricerLoop_spec 10 0 false 0 [⟨5, false, 2⟩, ⟨7, true, 3⟩]).1 0 (by decide)

/-- The round body latches `aborted` exactly when a called external
pricer of the round returned `DIDNOTRUN`. -/
theorem priceRoundBody_aborted (maxvars : Nat) (st : PriceLoopState)
    (e : PriceRoundExt) :
    (priceRoundBody maxvars st e).aborted =
      (st.aborted ||
        (extPricerLoop maxvars (decide (maxvars / 2 + 1 ≤ e.nvarsAfterProbPricing))
          ⟨false, 0, 0⟩ e.pricers).aborted) := by
  show (extPricerLoop maxvars (decide (maxvars / 2 + 1 ≤ e.nvarsAfterProbPricing))
      ⟨st.aborted, st.lowerbound, 0⟩ e.pricers).aborted = _
  rw [extPricerLoop_aborted maxvars e.pricers
      (decide (maxvars / 2 + 1 ≤ e.nvarsAfterProbPricing)) st.aborted st.lowerbound 0,
    extPricerLoop_aborted maxvars e.pricers
      (decide (maxvars / 2 + 1 ≤ e.nvarsAfterProbPricing)) false 0 0]
  simp

/-- The `aborted` latch of the pricing loop at loop exit equals the
disjunction of the per-round abort events of the executed rounds. -/
theorem priceLoopRounds_aborted (maxvars : Nat) (maxpricerounds : Int) :
    ∀ (trace : List PriceRoundExt) (st : PriceLoopState),
      (priceLoopRounds maxvars maxpricerounds st trace).1.aborted =
        (st.aborted ||
          ((priceLoopRounds maxvars maxpricerounds st trace).2.any
            (roundAborts maxvars))) := by
  intro trace
  induction trace with
  | nil => intro st; simp [priceLoopRounds]
  | cons e es ih =>
    intro st
    unfold priceLoopRounds
    by_cases hexit : (st.lperror || !st.mustprice ||
        decide (maxpricerounds ≤ (st.npricerounds : Int))) = true
    · simp [hexit]
    · rw [if_neg hexit]
      by_cases hstop : e.stopped = true
      · simp [hstop, roundAborts]
      · simp only [hstop, Bool.false_eq_true, if_false, List.any_cons]
        rw [ih, priceRoundBody_aborted]
        simp only [roundAborts, hstop, Bool.false_or]
        simp [Bool.or_assoc]

/-- C3, confirmed.  When `SCIPpriceLoop` returns, `aborted` equals the
disjunction of: an executed round latched an abort (the stop monitor
interrupted pricing, or a called pricer returned `DIDNOTRUN`), the
`lperror` flag is set, the final LP solution status is `NOTSOLVED` or
`ERROR`, or the number of executed pricing rounds equals the round limit
(with `-1` mapped to `INT_MAX`); and `lp.isRelax` is set to the negation
of `aborted`. -/
theorem SCIPpriceLoop_aborted_spec (maxvars : Nat) (maxpricerounds : Int)
    (ncolvars0 : Nat) (solstat0 : LPSolstat) (allColsInLP : Bool)
    (mustsepa0 : Bool) (lowerbound0 : ℚ) (trace : List PriceRoundExt) :
    (SCIPpriceLoop maxvars maxpricerounds ncolvars0 solstat0 allColsInLP
        mustsepa0 lowerbound0 trace).1.aborted =
      (((priceLoopRounds maxvars
          (if maxpricerounds = -1 then INT_MAX else maxpricerounds)
          { npricerounds := 0,
            mustprice := decide (solstat0 = LPSolstat.OPTIMAL ∨
              solstat0 = LPSolstat.INFEASIBLE ∨ solstat0 = LPSolstat.OBJLIMIT) &&
              !allColsInLP,
            aborted := false, lperror := false, mustsepa := mustsepa0,
            lowerbound := lowerbound0, npricedcolvars := ncolvars0,
            ncolvars := ncolvars0, solstat := solstat0 } trace).2.any
          (roundAborts maxvars)) ||
        (SCIPpriceLoop maxvars maxpricerounds ncolvars0 solstat0 allColsInLP
          mustsepa0 lowerbound0 trace).1.lperror ||
        decide ((SCIPpriceLoop maxvars maxpricerounds ncolvars0 solstat0 allColsInLP
          mustsepa0 lowerbound0 trace).1.solstat = LPSolstat.NOTSOLVED) ||
        decide ((SCIPpriceLoop maxvars maxpricerounds ncolvars0 solstat0 allColsInLP
          mustsepa0 lowerbound0 trace).1.solstat = LPSolstat.ERROR) ||
        decide (((SCIPpriceLoop maxvars maxpricerounds ncolvars0 solstat0 allColsInLP
          mustsepa0 lowerbound0 trace).1.npricerounds : Int) =
          (if maxpricerounds = -1 then INT_MAX else maxpricerounds))) ∧
    (SCIPpriceLoop maxvars maxpricerounds ncolvars0 solstat0 allColsInLP
        mustsepa0 lowerbound0 trace).2 =
      !(SCIPpriceLoop maxvars maxpricerounds ncolvars0 solstat0 allColsInLP
        mustsepa0 lowerbound0 trace).1.aborted := by
  simp only [SCIPpriceLoop]
  simp only [priceLoopRounds_aborted]
  simp [Bool.or_assoc]

/-! ### Price-and-cut loop: `priceAndCutLoop` (solve.c:1452-1877)

The main loop of a node's LP solve.  The inner pricing loop
(solve.c:1561-1649) is a sequence of `SCIPpriceLoop` calls that is
modelled above; here its net effect on the loop state is drawn from the
iteration input.  The separation machinery (cut pool, `separationRoundLP`
— itself a cascade of plug-in calls — cut application, propagation and
LP re-solve) is driven by per-iteration input records in the same way.
`ghost…` fields are instrumentation that count call events. -/

/-- Parameters of `priceAndCutLoop` fixed before the loop
(solve.c:1514-1535): the depth of the focus node, the separation gate
`separate` (an epsilon comparison of bound distances, external), and the
configured round limits (`-1` already mapped to `INT_MAX` as in
solve.c:1527-1535). -/
structure PacParams where
  actdepth : Nat
  separate : Bool
  maxseparounds : Nat
  maxnsepastallrounds : Nat
  maxcuts : Nat
  poolfreq : Int
  deriving DecidableEq, Repr

/-- Out-parameters of one `separationRoundLP` call (solve.c:900-1084) as
observed by `priceAndCutLoop`: `*delayed` and `*enoughcuts` are written
afresh, `*cutoff` and `*lperror` report the round, `mustsepaSet` and
`mustpriceSet` tell whether the round turned the corresponding flag on
(`separationRoundResolveLP`, solve.c:893-894), and the LP state after
the round. -/
structure SepRoundOut where
  delayed : Bool
  enoughcuts : Bool
  cutoff : Bool
  lperror : Bool
  mustsepaSet : Bool
  mustpriceSet : Bool
  solstatAfter : LPSolstat
  solvedAfter : Bool
  deriving DecidableEq, Repr

/-- Net effect of the inner pricing loop of one `priceAndCutLoop`
iteration (solve.c:1561-1649): the loop repeats `SCIPpriceLoop`,
lower-bound updates, re-propagation and LP re-solves until `mustprice`
is false or an LP error occurs. -/
structure PricePhaseOut where
  lperror : Bool
  cutoff : Bool
  setsMustsepa : Bool
  pricingaborted : Bool
  solstat : LPSolstat
  deriving DecidableEq, Repr

/-- External outcomes of one iteration of the price-and-cut loop. -/
structure PacIterExt where
  /-- net effect of the pricing phase (consumed when `mustprice` holds) -/
  price : PricePhaseOut
  /-- `SCIPsetIsGE(set, SCIPnodeGetLowerbound(focusnode), primal->cutoffbound)`
  at the separation gate (solve.c:1671) -/
  lowerGEcutoff : Bool
  /-- `SCIPsolveIsStopped(set, stat, FALSE)` at the gate (root only, 1672) -/
  rootStopped : Bool
  /-- `SCIPsepastoreGetNCuts` after global cut pool separation (1706) -/
  poolNCuts : Nat
  /-- cutoff detected by `SCIPcutpoolSeparate` (1705) -/
  poolCutoff : Bool
  /-- first `separationRoundLP` call (1725) -/
  round1 : SepRoundOut
  /-- near-stall delayed `separationRoundLP` call (1734) -/
  round2 : SepRoundOut
  /-- cutoff reported by `SCIPsepastoreApplyCuts` (1758) -/
  applyCutoff : Bool
  /-- `lp->flushed` after applying the cuts (1763) -/
  applyFlushed : Bool
  /-- `prob->ncolvars != npricedcolvars` after applying the cuts (1763) -/
  applyNColvarsChanged : Bool
  /-- `stat->domchgcount != olddomchgcount` (1767) -/
  domchgChanged : Bool
  /-- cutoff from `propagateDomains` (1770) -/
  propCutoff : Bool
  /-- `*lperror` of the re-solve (1787) -/
  resolveLperror : Bool
  /-- `SCIPlpGetSolstat(lp)` after the re-solve -/
  resolveSolstat : LPSolstat
  /-- number of fractional branching candidates (1798) -/
  nfracs : Int
  /-- `SCIPlpGetObjval(lp, set)` after the re-solve (1802) -/
  lpobjval : ℚ
  deriving DecidableEq, Repr

/-- State of the price-and-cut loop. -/
structure PacState where
  mustprice : Bool
  mustsepa : Bool
  delayedsepa : Bool
  cutoff : Bool
  lperror : Bool
  pricingaborted : Bool
  solstat : LPSolstat
  solved : Bool
  nsepastallrounds : Nat
  stalllpobjval : ℚ
  stallnfracs : Int
  installing : Bool
  /-- `stat->nseparounds` -/
  nseparounds : Nat
  /-- instrumentation: executed separation blocks of the loop -/
  ghostSepBlocks : Nat
  /-- instrumentation: `separationRoundLP` invocations -/
  ghostSepRoundCalls : Nat
  /-- instrumentation: a separation block was enabled purely by leftover
  delayed separators after regular separation was gated off (solve.c:1660) -/
  ghostDelayedResurrect : Bool
  deriving DecidableEq, Repr

/-- Maximum of two rationals, written so that the kernel can evaluate it
on concrete inputs. -/
def qmax (a b : ℚ) : ℚ := if a ≤ b then b else a

/-- Absolute value of a rational, written so that the kernel can
evaluate it on concrete inputs. -/
def qabs (a : ℚ) : ℚ := qmax a (-a)

/-- Modelled from the spec: the relative difference used for stall
detection (the spec calls it `reldiff`; the helper `SCIPrelDiff` lives in
`misc.c`, which is not part of this repository): the difference of the
two values scaled by the larger of their magnitudes and 1. -/
def relDiff (a b : ℚ) : ℚ := (a - b) / qmax 1 (qmax (qabs a) (qabs b))

/-- `SCIP_REAL_MIN`, the initial value of `stalllpobjval`
(solve.c:1551); any finite LP objective is far above it. -/
def REAL_MIN : ℚ := -(10 ^ 308)

/-- Applies one `separationRoundLP` outcome to the loop state
(out-parameter discipline described at `SepRoundOut`); the local
`enoughcuts` variable of the separation block receives `r.enoughcuts`
at the call site, since the round recomputes it from scratch
(solve.c:937). -/
def applySepRound (st : PacState) (r : SepRoundOut) : PacState :=
  { st with delayedsepa := r.delayed,
            cutoff := st.cutoff || r.cutoff,
            lperror := r.lperror,
            mustsepa := st.mustsepa || r.mustsepaSet,
            mustprice := st.mustprice || r.mustpriceSet,
            solstat := r.solstatAfter,
            solved := r.solvedAfter,
            ghostSepRoundCalls := st.ghostSepRoundCalls + 1 }

/-- The stall accounting of the separation block (solve.c:1791-1818),
entered after a successful optimal re-solve; operates on
`(nsepastallrounds, stalllpobjval, stallnfracs, installing)`. -/
def stallStep (P : PacParams) (n : Nat) (stallobj : ℚ) (stallnf : Int)
    (inst : Bool) (solstat : LPSolstat) (nfracsRaw : Int) (lpobjval : ℚ) :
    Nat × ℚ × Int × Bool :=
  -- `nfracs = INT_MAX` unless the LP is optimal/unbounded (solve.c:1796-1801)
  let nfracs : Int :=
    if solstat = LPSolstat.OPTIMAL ∨ solstat = LPSolstat.UNBOUNDEDRAY
    then nfracsRaw else INT_MAX
  let objreldiff := relDiff lpobjval stallobj
  -- reset or increment (solve.c:1806-1814)
  let r :=
    if decide ((1 : ℚ) / 10000 < objreldiff) ||
       decide ((nfracs : ℚ) ≤
         ((9 : ℚ) / 10 - (1 : ℚ) / 10 * (n : ℚ)) * (stallnf : ℚ)) then
      ((0 : Nat), lpobjval, nfracs, false)
    else (n + 1, stallobj, stallnf, inst)
  -- `if ( nsepastallrounds >= maxnsepastallrounds-2 ) lp->installing = TRUE;`
  if P.maxnsepastallrounds - 2 ≤ r.1 then (r.1, r.2.1, r.2.2.1, true) else r

/-- The cut application, re-propagation, LP re-solve and stall
accounting of the separation block (solve.c:1755-1822), entered when the
cuts are not discarded. -/
def applyAndStall (P : PacParams) (st : PacState) (e : PacIterExt) : PacState :=
  -- `SCIPsepastoreApplyCuts(…, cutoff)` (solve.c:1758)
  let st := { st with cutoff := e.applyCutoff }
  if st.cutoff then st
  else
    -- must-price / must-sepa updates (solve.c:1763-1764)
    let st := { st with
      mustprice := st.mustprice || !e.applyFlushed || e.applyNColvarsChanged,
      mustsepa := st.mustsepa || !e.applyFlushed }
    -- re-propagation on new bound changes (solve.c:1767-1779)
    let st := if e.domchgChanged then { st with cutoff := st.cutoff || e.propCutoff }
      else st
    if st.cutoff then st
    else
      -- `SCIPlpSolveAndEval` with dual simplex (solve.c:1787)
      let st := { st with lperror := e.resolveLperror, solstat := e.resolveSolstat,
                          solved := !e.resolveLperror }
      if !st.lperror && decide (st.solstat = LPSolstat.OPTIMAL) then
        -- stall accounting (solve.c:1791-1818)
        let r := stallStep P st.nsepastallrounds st.stalllpobjval st.stallnfracs
          st.installing st.solstat e.nfracs e.lpobjval
        { st with nsepastallrounds := r.1, stalllpobjval := r.2.1,
                  stallnfracs := r.2.2.1, installing := r.2.2.2 }
      else st

/-- The separation block of one loop iteration (solve.c:1682-1830),
entered under `!cutoff && !lperror && mustsepa`. -/
def sepBlock (P : PacParams) (st : PacState) (e : PacIterExt) : PacState :=
  let st := { st with ghostSepBlocks := st.ghostSepBlocks + 1 }
  -- `mustsepa = FALSE; enoughcuts = (SCIPsetGetSepaMaxcuts(set, root) == 0);`
  let st := { st with mustsepa := false }
  let ecuts := decide (P.maxcuts = 0)
  -- global cut pool separation (solve.c:1696-1712)
  let poolRound := !ecuts && !st.delayedsepa &&
    (decide (P.poolfreq = 0 ∧ P.actdepth = 0) ||
     decide (0 < P.poolfreq ∧ (P.actdepth : Int) % P.poolfreq = 0))
  let st := if poolRound then { st with cutoff := st.cutoff || e.poolCutoff } else st
  let ecuts := if poolRound then ecuts || decide (2 * P.maxcuts ≤ e.poolNCuts) else ecuts
  -- first separation round (solve.c:1721-1727)
  let round1 := !st.cutoff && !st.lperror && !ecuts && st.solved &&
    (decide (st.solstat = LPSolstat.OPTIMAL) ||
     decide (st.solstat = LPSolstat.UNBOUNDEDRAY))
  let st := if round1 then applySepRound st e.round1 else st
  let ecuts := if round1 then e.round1.enoughcuts else ecuts
  -- near-stall delayed separation round (solve.c:1729-1737)
  let round2 := round1 && !st.cutoff && !st.lperror && !ecuts && st.solved &&
    (decide (st.solstat = LPSolstat.OPTIMAL) ||
     decide (st.solstat = LPSolstat.UNBOUNDEDRAY)) &&
    decide (P.maxnsepastallrounds - 1 ≤ st.nsepastallrounds) && st.delayedsepa
  let st := if round2 then applySepRound st e.round2 else st
  -- discard the cuts or apply them (solve.c:1748-1822)
  let st :=
    if st.cutoff || st.lperror ||
       decide (st.solstat = LPSolstat.INFEASIBLE) ||
       decide (st.solstat = LPSolstat.OBJLIMIT) ||
       decide (st.solstat = LPSolstat.ITERLIMIT) ||
       decide (st.solstat = LPSolstat.TIMELIMIT) then
      -- `SCIPsepastoreClearCuts(…)`: the found cuts are of no use
      st
    else
      applyAndStall P st e
  -- `stat->nseparounds++;` (solve.c:1829)
  { st with nseparounds := st.nseparounds + 1 }

/-- The pricing phase of one loop iteration (solve.c:1561-1649): the
inner `while (mustprice && !lperror)` loop whose body is `SCIPpriceLoop`
followed by bound updates, optional re-propagation and re-solves, and
during-LP-loop heuristics; its net effect on the loop state is drawn
from the iteration input. -/
def pacPricePhase (st : PacState) (e : PacIterExt) : PacState :=
  if st.mustprice && !st.lperror then
    { st with mustprice := false,
              lperror := e.price.lperror,
              cutoff := st.cutoff || e.price.cutoff,
              mustsepa := st.mustsepa || e.price.setsMustsepa,
              pricingaborted := e.price.pricingaborted,
              solstat := e.price.solstat,
              solved := !e.price.lperror }
  else st

/-- The three separation gates of one loop iteration
(solve.c:1654-1677): the round/stall limits, the final round with the
delayed separators, and the LP-status / bound / stop gate. -/
def pacSepGates (P : PacParams) (st : PacState) (e : PacIterExt) : PacState :=
  -- separation round / stall limits (solve.c:1654-1657)
  let st := { st with
    mustsepa := st.mustsepa && decide (st.nseparounds < P.maxseparounds) &&
      decide (st.nsepastallrounds < P.maxnsepastallrounds) && !st.cutoff }
  -- final round with the delayed separators (solve.c:1660-1661)
  let resurrect := st.delayedsepa && !st.mustsepa && !st.cutoff
  let st := { st with delayedsepa := resurrect,
                      mustsepa := st.mustsepa || resurrect,
                      ghostDelayedResurrect := st.ghostDelayedResurrect || resurrect }
  -- gate the separation off (solve.c:1667-1677)
  let root := decide (P.actdepth = 0)
  if st.mustsepa &&
     (!P.separate ||
      !(decide (st.solstat = LPSolstat.OPTIMAL) ||
        decide (st.solstat = LPSolstat.UNBOUNDEDRAY)) ||
      e.lowerGEcutoff || (root && e.rootStopped)) then
    { st with mustsepa := false, delayedsepa := false }
  else st

/-- One iteration of the price-and-cut loop body (solve.c:1554-1831). -/
def pacIterate (P : PacParams) (st : PacState) (e : PacIterExt) : PacState :=
  let st := pacPricePhase st e
  let st := pacSepGates P st e
  -- separation (solve.c:1682-1830)
  if !st.cutoff && !st.lperror && st.mustsepa then sepBlock P st e else st

/-- The `while` loop of `priceAndCutLoop` (solve.c:1554-1831) consuming
one input record per iteration.  The second component tells whether the
loop terminated (its condition became false) within the trace. -/
def pacLoop (P : PacParams) (st : PacState) : List PacIterExt → PacState × Bool
  | [] => (st, !(!st.cutoff && !st.lperror &&
      (st.mustprice || st.mustsepa || st.delayedsepa)))
  | e :: es =>
    if !st.cutoff && !st.lperror && (st.mustprice || st.mustsepa || st.delayedsepa) then
      pacLoop P (pacIterate P st e) es
    else (st, true)

/-- `priceAndCutLoop` up to the end of its main loop
(solve.c:1537-1831): the state initialisation of solve.c:1544-1553 with
the initial LP solve of solve.c:1539 drawn from `initLperror` /
`initSolstat`, followed by the loop. -/
def priceAndCutLoop (P : PacParams) (initLperror : Bool) (initSolstat : LPSolstat)
    (nseparounds0 : Nat) (trace : List PacIterExt) : PacState × Bool :=
  pacLoop P
    { mustprice := true, mustsepa := P.separate, delayedsepa := false,
      cutoff := false, lperror := initLperror, pricingaborted := false,
      solstat := initSolstat, solved := !initLperror, nsepastallrounds := 0,
      stalllpobjval := REAL_MIN, stallnfracs := INT_MAX, installing := false,
      nseparounds := nseparounds0, ghostSepBlocks := 0, ghostSepRoundCalls := 0,
      ghostDelayedResurrect := false } trace

/-- The stall step resets the counter to zero or increments it by one,
exactly along its reset condition. -/
theorem stallStep_fst (P : PacParams) (n : Nat) (stallobj : ℚ) (stallnf : Int)
    (inst : Bool) (solstat : LPSolstat) (nfracsRaw : Int) (lpobjval : ℚ) :
    (stallStep P n stallobj stallnf inst solstat nfracsRaw lpobjval).1 =
      if decide ((1 : ℚ) / 10000 < relDiff lpobjval stallobj) ||
         decide ((((if solstat = LPSolstat.OPTIMAL ∨ solstat = LPSolstat.UNBOUNDEDRAY
             then nfracsRaw else INT_MAX) : Int) : ℚ) ≤
           ((9 : ℚ) / 10 - (1 : ℚ) / 10 * (n : ℚ)) * (stallnf : ℚ)) then 0
      else n + 1 := by
  simp only [stallStep]
  split_ifs <;> simp_all

/-- The stall step increments the counter by at most one. -/
theorem stallStep_le (P : PacParams) (n : Nat) (stallobj : ℚ) (stallnf : Int)
    (inst : Bool) (solstat : LPSolstat) (nfracsRaw : Int) (lpobjval : ℚ) :
    (stallStep P n stallobj stallnf inst solstat nfracsRaw lpobjval).1 ≤ n + 1 := by
  rw [stallStep_fst]
  split_ifs <;> omega

/-- `applyAndStall` leaves the separation-round counters untouched. -/
theorem applyAndStall_nseparounds (P : PacParams) (st : PacState) (e : PacIterExt) :
    (applyAndStall P st e).nseparounds = st.nseparounds := by
  simp only [applyAndStall]
  dsimp only
  split_ifs <;> rfl

/-- `applyAndStall` leaves the block instrumentation counter untouched. -/
theorem applyAndStall_ghostSepBlocks (P : PacParams) (st : PacState) (e : PacIterExt) :
    (applyAndStall P st e).ghostSepBlocks = st.ghostSepBlocks := by
  simp only [applyAndStall]
  dsimp only
  split_ifs <;> rfl

/-- `applyAndStall` leaves the resurrection instrumentation flag untouched. -/
theorem applyAndStall_ghostResurrect (P : PacParams) (st : PacState) (e : PacIterExt) :
    (applyAndStall P st e).ghostDelayedResurrect = st.ghostDelayedResurrect := by
  simp only [applyAndStall]
  dsimp only
  split_ifs <;> rfl

/-- `applyAndStall` increments the stall counter by at most one. -/
theorem applyAndStall_stall_le (P : PacParams) (st : PacState) (e : PacIterExt) :
    (applyAndStall P st e).nsepastallrounds ≤ st.nsepastallrounds + 1 := by
  simp only [applyAndStall]
  dsimp only
  split_ifs <;>
    first
      | exact stallStep_le P st.nsepastallrounds st.stalllpobjval st.stallnfracs
          st.installing e.resolveSolstat e.nfracs e.lpobjval
      | simp

/-- The separation block increments `stat->nseparounds` by exactly one. -/
theorem sepBlock_nseparounds (P : PacParams) (st : PacState) (e : PacIterExt) :
    (sepBlock P st e).nseparounds = st.nseparounds + 1 := by
  simp only [sepBlock, applySepRound]
  split_ifs <;> simp_all [applyAndStall_nseparounds]

/-- The separation block increments the block instrumentation counter by
exactly one. -/
theorem sepBlock_ghostSepBlocks (P : PacParams) (st : PacState) (e : PacIterExt) :
    (sepBlock P st e).ghostSepBlocks = st.ghostSepBlocks + 1 := by
  simp only [sepBlock, applySepRound]
  split_ifs <;> simp_all [applyAndStall_ghostSepBlocks]

/-- The separation block leaves the resurrection instrumentation flag
untouched. -/
theorem sepBlock_ghostResurrect (P : PacParams) (st : PacState) (e : PacIterExt) :
    (sepBlock P st e).ghostDelayedResurrect = st.ghostDelayedResurrect := by
  simp only [sepBlock, applySepRound]
  split_ifs <;> simp_all [applyAndStall_ghostResurrect]

/-- The separation block increments the stall counter by at most one. -/
theorem sepBlock_stall_le (P : PacParams) (st : PacState) (e : PacIterExt) :
    (sepBlock P st e).nsepastallrounds ≤ st.nsepastallrounds + 1 := by
  simp only [sepBlock, applySepRound]
  split_ifs <;>
    first
      | (refine le_trans (applyAndStall_stall_le P _ e) ?_
         simp)
      | simp

/-- The pricing phase leaves counters and instrumentation untouched. -/
theorem pacPricePhase_counters (st : PacState) (e : PacIterExt) :
    (pacPricePhase st e).nseparounds = st.nseparounds ∧
    (pacPricePhase st e).ghostSepBlocks = st.ghostSepBlocks ∧
    (pacPricePhase st e).nsepastallrounds = st.nsepastallrounds ∧
    (pacPricePhase st e).ghostDelayedResurrect = st.ghostDelayedResurrect := by
  unfold pacPricePhase
  split_ifs <;> simp

/-- The separation gates leave counters untouched and only raise the
resurrection instrumentation flag. -/
theorem pacSepGates_counters (P : PacParams) (st : PacState) (e : PacIterExt) :
    (pacSepGates P st e).nseparounds = st.nseparounds ∧
    (pacSepGates P st e).ghostSepBlocks = st.ghostSepBlocks ∧
    (pacSepGates P st e).nsepastallrounds = st.nsepastallrounds := by
  simp only [pacSepGates]
  split_ifs <;> simp

/-- The separation gates only raise the resurrection flag. -/
theorem pacSepGates_ghost_mono (P : PacParams) (st : PacState) (e : PacIterExt)
    (h : st.ghostDelayedResurrect = true) :
    (pacSepGates P st e).ghostDelayedResurrect = true := by
  simp only [pacSepGates]
  split_ifs <;> simp [h]

/-- If the separation gates leave `mustsepa` on, then either the stall
counter was still below its cap, or the block was enabled purely by
leftover delayed separators (and the resurrection flag records it). -/
theorem pacSepGates_mustsepa (P : PacParams) (st : PacState) (e : PacIterExt)
    (h : (pacSepGates P st e).mustsepa = true) :
    (pacSepGates P st e).ghostDelayedResurrect = true ∨
      st.nsepastallrounds < P.maxnsepastallrounds := by
  simp only [pacSepGates] at h ⊢
  split_ifs at h ⊢
  all_goals simp_all
  all_goals tauto

/-- One loop iteration only raises the resurrection instrumentation
flag. -/
theorem pacIterate_ghost_mono (P : PacParams) (st : PacState) (e : PacIterExt)
    (h : st.ghostDelayedResurrect = true) :
    (pacIterate P st e).ghostDelayedResurrect = true := by
  have hg : (pacSepGates P (pacPricePhase st e) e).ghostDelayedResurrect = true :=
    pacSepGates_ghost_mono P _ e
      (by rw [(pacPricePhase_counters st e).2.2.2]; exact h)
  simp only [pacIterate]
  split_ifs
  · rw [sepBlock_ghostResurrect]; exact hg
  · exact hg

/-- One loop iteration advances `stat->nseparounds` and the executed
separation-block instrumentation counter in lockstep. -/
theorem pacIterate_sepcount (P : PacParams) (st : PacState) (e : PacIterExt) :
    (pacIterate P st e).nseparounds + st.ghostSepBlocks =
      st.nseparounds + (pacIterate P st e).ghostSepBlocks := by
  have h1 := pacPricePhase_counters st e
  have h2 := pacSepGates_counters P (pacPricePhase st e) e
  simp only [pacIterate]
  split_ifs
  · rw [sepBlock_nseparounds, sepBlock_ghostSepBlocks, h2.1, h2.2.1, h1.1, h1.2.1]
    omega
  · rw [h2.1, h2.2.1, h1.1, h1.2.1]

/-- One loop iteration keeps the stall counter within the cap unless
the separation block was enabled purely by leftover delayed
separators. -/
theorem pacIterate_stall (P : PacParams) (st : PacState) (e : PacIterExt)
    (h : st.nsepastallrounds ≤ P.maxnsepastallrounds) :
    (pacIterate P st e).nsepastallrounds ≤ P.maxnsepastallrounds ∨
      (pacIterate P st e).ghostDelayedResurrect = true := by
  have h1 := pacPricePhase_counters st e
  have h2 := pacSepGates_counters P (pacPricePhase st e) e
  simp only [pacIterate]
  split_ifs with hb
  · have hm : (pacSepGates P (pacPricePhase st e) e).mustsepa = true := by
      simp only [Bool.and_eq_true] at hb
      exact hb.2
    rcases pacSepGates_mustsepa P (pacPricePhase st e) e hm with hg | hlt
    · right
      rw [sepBlock_ghostResurrect]
      exact hg
    · left
      have hle := sepBlock_stall_le P (pacSepGates P (pacPricePhase st e) e) e
      rw [h2.2.2, h1.2.2.1] at hle
      rw [h1.2.2.1] at hlt
      omega
  · left
    rw [h2.2.2, h1.2.2.1]
    exact h

/-- C9, amended.  Over any run of the price-and-cut loop,
`stat->nseparounds` advances in lockstep with the number of executed
separation blocks: each executed separation block — which may invoke
`separationRoundLP` zero, one, or (near the stall cap, with delayed
separators) two times — increments the counter by exactly one, and
nothing else touches it. -/
theorem pacLoop_nseparounds (P : PacParams) :
    ∀ (trace : List PacIterExt) (st : PacState),
      (pacLoop P st trace).1.nseparounds + st.ghostSepBlocks =
        st.nseparounds + (pacLoop P st trace).1.ghostSepBlocks := by
  intro trace
  induction trace with
  | nil => intro st; simp [pacLoop]
  | cons e es ih =>
    intro st
    unfold pacLoop
    split_ifs
    · have h := pacIterate_sepcount P st e
      have h2 := ih (pacIterate P st e)
      omega
    · simp

/-- Invariant propagation for the stall bound along a run of the loop. -/
theorem pacLoop_stall_aux (P : PacParams) :
    ∀ (trace : List PacIterExt) (st : PacState),
      (st.nsepastallrounds ≤ P.maxnsepastallrounds ∨
        st.ghostDelayedResurrect = true) →
      ((pacLoop P st trace).1.nsepastallrounds ≤ P.maxnsepastallrounds ∨
        (pacLoop P st trace).1.ghostDelayedResurrect = true) := by
  intro trace
  induction trace with
  | nil => intro st h; simpa [pacLoop] using h
  | cons e es ih =>
    intro st h
    unfold pacLoop
    split_ifs
    · rcases h with hn | hg
      · exact ih _ (pacIterate_stall P st e hn)
      · exact ih _ (Or.inr (pacIterate_ghost_mono P st e hg))
    · simpa using h

/-- C4, amended.  (1) In every iteration of the price-and-cut loop whose
separation block applies its cuts and re-solves the LP to optimality
without error, the stall counter is reset to zero iff
`objreldiff > 10⁻⁴` (signed, not in absolute value) or
`nfracs ≤ (0.9 − 0.1·nsepastallrounds)·stallnfracs`, and is incremented
by one otherwise.  (2) At any point of a run of the loop the counter
satisfies `nsepastallrounds ≤ max_sepa_stall_rounds` unless a separation
block was enabled purely by leftover delayed separators after regular
separation was gated off (only such delayed blocks can push the counter
past the cap, since regular separation requires
`nsepastallrounds < max_sepa_stall_rounds`). -/
theorem priceAndCut_stall_spec :
    (∀ (P : PacParams) (st : PacState) (e : PacIterExt),
        e.applyCutoff = false → e.propCutoff = false → e.resolveLperror = false →
        e.resolveSolstat = LPSolstat.OPTIMAL →
        (applyAndStall P st e).nsepastallrounds =
          (if decide ((1 : ℚ) / 10000 < relDiff e.lpobjval st.stalllpobjval) ||
              decide ((e.nfracs : ℚ) ≤
                ((9 : ℚ) / 10 - (1 : ℚ) / 10 * (st.nsepastallrounds : ℚ)) *
                  (st.stallnfracs : ℚ)) then 0
           else st.nsepastallrounds + 1)) ∧
    (∀ (P : PacParams) (trace : List PacIterExt) (st : PacState),
        st.nsepastallrounds ≤ P.maxnsepastallrounds →
        st.ghostDelayedResurrect = false →
        (pacLoop P st trace).1.nsepastallrounds ≤ P.maxnsepastallrounds ∨
          (pacLoop P st trace).1.ghostDelayedResurrect = true) := by
  constructor
  · intro P st e h1 h2 h3 h4
    simp [applyAndStall, h1, h2, h3, h4, stallStep_fst]
  · intro P trace st h _
    exact pacLoop_stall_aux P trace st (Or.inl h)

/-- Loop parameters for the concrete stall runs: a depth-1 node with
separation enabled, round limit 10, stall cap 10, cut limit 5 and the
cut pool disabled. -/
def pacParamsC4 : PacParams :=
  { actdepth := 1, separate := true, maxseparounds := 10,
    maxnsepastallrounds := 10, maxcuts := 5, poolfreq := -1 }

/-- A pricing phase that prices nothing and leaves the LP optimal. -/
def pacPriceQuiet : PricePhaseOut :=
  { lperror := false, cutoff := false, setsMustsepa := false,
    pricingaborted := false, solstat := LPSolstat.OPTIMAL }

/-- A separation round that finds nothing: `ms` is its `mustsepa`
out-flag, `del` its delayed out-flag. -/
def sepRoundQuiet (ms delayed : Bool) : SepRoundOut :=
  { delayed := delayed, enoughcuts := false, cutoff := false, lperror := false,
    mustsepaSet := ms, mustpriceSet := false,
    solstatAfter := LPSolstat.OPTIMAL, solvedAfter := true }

/-- First loop iteration of the stall counterexample: a separation round
that requests another one, an optimal re-solve with objective 10 and 10
fractional candidates (the stall reference values). -/
def pacIterC4a : PacIterExt :=
  { price := pacPriceQuiet, lowerGEcutoff := false, rootStopped := false,
    poolNCuts := 0, poolCutoff := false, round1 := sepRoundQuiet true false,
    round2 := sepRoundQuiet false false, applyCutoff := false,
    applyFlushed := true, applyNColvarsChanged := false, domchgChanged := false,
    propCutoff := false, resolveLperror := false,
    resolveSolstat := LPSolstat.OPTIMAL, nfracs := 10, lpobjval := 10 }

/-- Second loop iteration of the stall counterexample: the optimal
re-solve now reports objective 0, so the relative difference to the
stall reference 10 is −1. -/
def pacIterC4b : PacIterExt :=
  { price := pacPriceQuiet, lowerGEcutoff := false, rootStopped := false,
    poolNCuts := 0, poolCutoff := false, round1 := sepRoundQuiet false false,
    round2 := sepRoundQuiet false false, applyCutoff := false,
    applyFlushed := true, applyNColvarsChanged := false, domchgChanged := false,
    propCutoff := false, resolveLperror := false,
    resolveSolstat := LPSolstat.OPTIMAL, nfracs := 10, lpobjval := 0 }

/-- C4, counterexample.  Running the loop for two iterations: the first
sets the stall reference to objective 10 with 10 fractionals; in the
second the LP is re-solved to optimality after applying cuts with
objective 0, so `objreldiff = relDiff 0 10 = −1` and
`|objreldiff| > 10⁻⁴`, while the fractional count does not drop — the
claim (with the absolute value) predicts a reset, but the code
increments the stall counter to 1, and the loop then terminates. -/
theorem pac_stall_claim_false :
    (priceAndCutLoop pacParamsC4 false LPSolstat.OPTIMAL 0 [pacIterC4a]).1.nsepastallrounds = 0 ∧
    (priceAndCutLoop pacParamsC4 false LPSolstat.OPTIMAL 0 [pacIterC4a]).1.stalllpobjval = 10 ∧
    (priceAndCutLoop pacParamsC4 false LPSolstat.OPTIMAL 0 [pacIterC4a]).1.stallnfracs = 10 ∧
    relDiff pacIterC4b.lpobjval 10 = -1 ∧
    (1 : ℚ) / 10000 < qabs (relDiff pacIterC4b.lpobjval 10) ∧
    ¬((pacIterC4b.nfracs : ℚ) ≤ ((9 : ℚ) / 10 - 0) * 10) ∧
    (priceAndCutLoop pacParamsC4 false LPSolstat.OPTIMAL 0
      [pacIterC4a, pacIterC4b]).1.nsepastallrounds = 1 ∧
    (priceAndCutLoop pacParamsC4 false LPSolstat.OPTIMAL 0
      [pacIterC4a, pacIterC4b]).2 = true := by
  have h1 : LPSolstat.OPTIMAL ≠ LPSolstat.INFEASIBLE := by decide
  have h2 : LPSolstat.OPTIMAL ≠ LPSolstat.OBJLIMIT := by decide
  have h3 : LPSolstat.OPTIMAL ≠ LPSolstat.ITERLIMIT := by decide
  have h4 : LPSolstat.OPTIMAL ≠ LPSolstat.TIMELIMIT := by decide
  norm_num [priceAndCutLoop, pacLoop, pacIterate, pacPricePhase, pacSepGates,
    sepBlock, applySepRound, applyAndStall, stallStep, relDiff, qmax, qabs,
    REAL_MIN, INT_MAX, pacParamsC4, pacIterC4a, pacIterC4b, pacPriceQuiet,
    sepRoundQuiet, h1, h2, h3, h4]

/-- Witness for `priceAndCut_stall_spec` at a concrete state and
iteration input. -/
theorem priceAndCut_stall_spec_witness :
    (applyAndStall pacParamsC4
        (priceAndCutLoop pacParamsC4 false LPSolstat.OPTIMAL 0 [pacIterC4a]).1
        pacIterC4b).nsepastallrounds =
      (if decide ((1 : ℚ) / 10000 < relDiff pacIterC4b.lpobjval
            (priceAndCutLoop pacParamsC4 false LPSolstat.OPTIMAL 0
              [pacIterC4a]).1.stalllpobjval) ||
          decide ((pacIterC4b.nfracs : ℚ) ≤
            ((9 : ℚ) / 10 - (1 : ℚ) / 10 *
              ((priceAndCutLoop pacParamsC4 false LPSolstat.OPTIMAL 0
                [pacIterC4a]).1.nsepastallrounds : ℚ)) *
              ((priceAndCutLoop pacParamsC4 false LPSolstat.OPTIMAL 0
                [pacIterC4a]).1.stallnfracs : ℚ)) then 0
       else (priceAndCutLoop pacParamsC4 false LPSolstat.OPTIMAL 0
         [pacIterC4a]).1.nsepastallrounds + 1) :=
  priceAndCut_stall_spec.1 pacParamsC4 _ pacIterC4b rfl rfl rfl rfl

/-- Loop parameters for the double-round run: stall cap 1, so the
near-stall delayed round is reachable immediately. -/
def pacParamsC9 : PacParams :=
  { actdepth := 1, separate := true, maxseparounds := 10,
    maxnsepastallrounds := 1, maxcuts := 5, poolfreq := -1 }

/-- Iteration input of the double-round run: the first separation round
leaves a delayed separator, and the stall cap of 1 makes the block run
the delayed round as well. -/
def pacIterC9 : PacIterExt :=
  { price := pacPriceQuiet, lowerGEcutoff := false, rootStopped := false,
    poolNCuts := 0, poolCutoff := false, round1 := sepRoundQuiet false true,
    round2 := sepRoundQuiet false false, applyCutoff := false,
    applyFlushed := true, applyNColvarsChanged := false, domchgChanged := false,
    propCutoff := false, resolveLperror := false,
    resolveSolstat := LPSolstat.OPTIMAL, nfracs := 0, lpobjval := 0 }

/-- C9, counterexample.  A single separation block of the price-and-cut
loop executes `separationRoundLP` twice (the regular round plus the
near-stall delayed round, solve.c:1725 and 1734) yet increments
`stat->nseparounds` only once (solve.c:1829) — so not every executed
separation round increments the counter by exactly one. -/
theorem sepround_claim_false :
    (priceAndCutLoop pacParamsC9 false LPSolstat.OPTIMAL 0
      [pacIterC9]).1.ghostSepRoundCalls = 2 ∧
    (priceAndCutLoop pacParamsC9 false LPSolstat.OPTIMAL 0
      [pacIterC9]).1.nseparounds = 1 ∧
    (priceAndCutLoop pacParamsC9 false LPSolstat.OPTIMAL 0
      [pacIterC9]).2 = true := by
  norm_num [priceAndCutLoop, pacLoop, pacIterate, pacPricePhase, pacSepGates,
    sepBlock, applySepRound, applyAndStall, stallStep, relDiff, qmax, qabs,
    REAL_MIN, INT_MAX, pacParamsC9, pacIterC9, pacPriceQuiet, sepRoundQuiet]
  decide

/-! ### Constraint enforcement: `enforceConstraints` (solve.c:2203-2410)

One call of a constraint handler's enforcement method
(`SCIPconshdlrEnforceLPSol` / `SCIPconshdlrEnforcePseudoSol`) is modelled
by an `EnfoStep` input record: the `SCIP_RESULT` it returns, the LP
solution status after the call (the enforcement may add a primal solution
that moves the LP to the objective limit, solve.c:2392-2399) and the
number of cuts in the separation store after the call (pseudo enforcement
must not separate cuts, solve.c:2287-2292).  The `objinfeasible`
computation (solve.c:2251-2258) only feeds the handler call itself and a
debug assertion, so it is part of the opaque handler input.  A `none`
return models the `SCIP_INVALIDRESULT` error returns (solve.c:2291,
2384). -/

/-- Input record for one constraint handler enforcement call. -/
structure EnfoStep where
  result : Result
  lpSolstatAfter : LPSolstat
  sepaNCutsAfter : Nat
  deriving DecidableEq, Repr

/-- The out-flags of `enforceConstraints`, the `resolved` local, and the
focus-node LP flag (which `SCIP_SOLVELP` switches on, solve.c:2352). -/
structure EnfoState where
  hasLP : Bool
  branched : Bool
  cutoff : Bool
  infeasible : Bool
  propagateagain : Bool
  solvelpagain : Bool
  solverelaxagain : Bool
  resolved : Bool
  deriving DecidableEq, Repr

/-- One iteration of the enforcement loop body (solve.c:2272-2400):
handler call, the `switch( result )`, and the objective-limit post-check
solve.c:2392-2399.  Result codes not listed in the `switch` fall to the
`default:` branch and return `SCIP_INVALIDRESULT` (solve.c:2379-2384). -/
def enforceOne (st : EnfoState) (s : EnfoStep) : Option EnfoState :=
  if !st.hasLP && decide (s.sepaNCutsAfter ≠ 0) then none
  else
    let post : EnfoState → EnfoState := fun st2 =>
      if st2.hasLP && decide (s.lpSolstatAfter = LPSolstat.OBJLIMIT) then
        { st2 with cutoff := true, infeasible := true, resolved := true }
      else st2
    match s.result with
    | Result.CUTOFF =>
        some (post { st with cutoff := true, infeasible := true, resolved := true })
    | Result.CONSADDED =>
        some (post { st with infeasible := true, propagateagain := true,
                             solvelpagain := true, solverelaxagain := true,
                             resolved := true })
    | Result.REDUCEDDOM =>
        some (post { st with infeasible := true, propagateagain := true,
                             solvelpagain := true, solverelaxagain := true,
                             resolved := true })
    | Result.SEPARATED =>
        some (post { st with infeasible := true, solvelpagain := true,
                             solverelaxagain := true, resolved := true })
    | Result.BRANCHED =>
        some (post { st with infeasible := true, branched := true, resolved := true })
    | Result.SOLVELP =>
        some (post { st with infeasible := true, solvelpagain := true,
                             resolved := true, hasLP := true })
    | Result.INFEASIBLE => some (post { st with infeasible := true })
    | Result.FEASIBLE => some (post st)
    | Result.DIDNOTRUN => some (post { st with infeasible := true })
    | _ => none

/-- The enforcement loop `for( h = 0; h < set->nconshdlrs && !resolved; ++h )`
(solve.c:2270). -/
def enforceLoop (st : EnfoState) : List EnfoStep → Option EnfoState
  | [] => some st
  | s :: rest =>
    if st.resolved then some st
    else
      match enforceOne st s with
      | none => none
      | some st2 => enforceLoop st2 rest

/-- `enforceConstraints`: `*branched = FALSE` at entry (solve.c:2242); the
caller guarantees `cutoff`, `propagateagain`, `solvelpagain` and
`solverelaxagain` are clear at entry (asserts solve.c:2238-2241). -/
def enforceConstraints (hasLP infeasible0 : Bool) (steps : List EnfoStep) :
    Option EnfoState :=
  enforceLoop
    { hasLP := hasLP, branched := false, cutoff := false,
      infeasible := infeasible0, propagateagain := false,
      solvelpagain := false, solverelaxagain := false, resolved := false }
    steps

/-- A step on which the handler reports plain infeasibility without
resolving it (`INFEASIBLE`, or `DIDNOTRUN` on an objective-infeasible
pseudo solution, solve.c:2356-2377). -/
def stepInfeasibleOnly (s : EnfoStep) : Bool :=
  decide (s.result = Result.INFEASIBLE) || decide (s.result = Result.DIDNOTRUN)

/-- A resolved state absorbs the rest of the loop. -/
theorem enforceLoop_resolved (st : EnfoState) (steps : List EnfoStep)
    (h : st.resolved = true) : enforceLoop st steps = some st := by
  cases steps <;> simp [enforceLoop, h]

/-- One enforcement iteration preserves the flag discipline: `resolved`
tracks the disjunction of the four action flags, `propagateagain` never
appears without `solvelpagain`, and an iteration that leaves the state
unresolved only accumulates `infeasible`. -/
theorem enforceOne_inv (st st2 : EnfoState) (s : EnfoStep)
    (ha : st.resolved = (st.branched || st.cutoff || st.propagateagain ||
      st.solvelpagain))
    (hb : st.propagateagain = true → st.solvelpagain = true)
    (h : enforceOne st s = some st2) :
    (st2.resolved = (st2.branched || st2.cutoff || st2.propagateagain ||
      st2.solvelpagain)) ∧
    (st2.propagateagain = true → st2.solvelpagain = true) ∧
    (st2.resolved = false →
      st2.branched = st.branched ∧ st2.cutoff = st.cutoff ∧
      st2.propagateagain = st.propagateagain ∧
      st2.solvelpagain = st.solvelpagain ∧
      st2.infeasible = (st.infeasible || stepInfeasibleOnly s)) := by
  obtain ⟨r, sol, nc⟩ := s
  cases r
  all_goals simp only [enforceOne] at h
  all_goals split_ifs at h
  all_goals try cases h
  all_goals simp_all [stepInfeasibleOnly]

/-- Flag discipline along the whole enforcement loop. -/
theorem enforceLoop_inv (steps : List EnfoStep) :
    ∀ (st st' : EnfoState),
      st.resolved = (st.branched || st.cutoff || st.propagateagain ||
        st.solvelpagain) →
      (st.propagateagain = true → st.solvelpagain = true) →
      enforceLoop st steps = some st' →
      (st'.resolved = (st'.branched || st'.cutoff || st'.propagateagain ||
        st'.solvelpagain)) ∧
      (st'.propagateagain = true → st'.solvelpagain = true) ∧
      (st'.resolved = false →
        st'.branched = st.branched ∧ st'.cutoff = st.cutoff ∧
        st'.propagateagain = st.propagateagain ∧
        st'.solvelpagain = st.solvelpagain ∧
        st'.infeasible = (st.infeasible || steps.any stepInfeasibleOnly)) := by
  induction steps with
  | nil =>
    intro st st' ha hb h
    simp only [enforceLoop, Option.some.injEq] at h
    subst h
    exact ⟨ha, hb, fun _ => ⟨rfl, rfl, rfl, rfl, by simp⟩⟩
  | cons s rest ih =>
    intro st st' ha hb h
    simp only [enforceLoop] at h
    split_ifs at h with hres
    · simp only [Option.some.injEq] at h
      subst h
      refine ⟨ha, hb, fun hfalse => absurd hres (by simp [hfalse])⟩
    · cases h2 : enforceOne st s with
      | none => rw [h2] at h; exact absurd h (by simp)
      | some stm =>
        rw [h2] at h
        dsimp only at h
        obtain ⟨ka, kb, kc⟩ := enforceOne_inv st stm s ha hb h2
        obtain ⟨la, lb, lc⟩ := ih stm st' ka kb h
        refine ⟨la, lb, fun hur => ?_⟩
        obtain ⟨m1, m2, m3, m4, m5⟩ := lc hur
        have hmur : stm.resolved = false := by
          by_contra hc
          have : stm.resolved = true := by
            cases hx : stm.resolved
            · exact absurd hx hc
            · rfl
          rw [enforceLoop_resolved stm rest this] at h
          simp only [Option.some.injEq] at h
          subst h
          rw [hur] at this
          exact absurd this (by simp)
        obtain ⟨n1, n2, n3, n4, n5⟩ := kc hmur
        refine ⟨by rw [m1, n1], by rw [m2, n2], by rw [m3, n3],
          by rw [m4, n4], ?_⟩
        rw [m5, n5]
        simp [Bool.or_assoc]

/-- C1, amended.  At the end of every successful call of constraint
enforcement (entered, as the code asserts, with the `cutoff`,
`propagateagain`, `solvelpagain` flags clear): the handlers resolved the
infeasibility iff at least one of the flags
`(branched, cutoff, solvelpagain, propagateagain)` is set — but not
necessarily exactly one: `propagateagain` is always accompanied by
`solvelpagain` (`CONSADDED` and `REDUCEDDOM` set both,
solve.c:2309-2325); and when the handlers returned only
`INFEASIBLE`/`FEASIBLE`/`DIDNOTRUN` verdicts none of the four flags is
set, while `infeasible` is raised iff it was raised on entry or some
handler answered `INFEASIBLE` or `DIDNOTRUN` (an all-`FEASIBLE` call
leaves it clear). -/
theorem enforceConstraints_spec (hasLP inf0 : Bool) (steps : List EnfoStep)
    (st' : EnfoState) (h : enforceConstraints hasLP inf0 steps = some st') :
    (st'.resolved = (st'.branched || st'.cutoff || st'.propagateagain ||
      st'.solvelpagain)) ∧
    (st'.propagateagain = true → st'.solvelpagain = true) ∧
    (st'.resolved = false →
      st'.branched = false ∧ st'.cutoff = false ∧
      st'.propagateagain = false ∧ st'.solvelpagain = false ∧
      st'.infeasible = (inf0 || steps.any stepInfeasibleOnly)) := by
  simp only [enforceConstraints] at h
  exact enforceLoop_inv steps _ st' rfl (by simp) h

/-- Witness for `enforceConstraints_spec`: a single handler that answers
`INFEASIBLE` on an LP node. -/
theorem enforceConstraints_spec_witness :
    (enforceConstraints true false
        [⟨Result.INFEASIBLE, LPSolstat.OPTIMAL, 0⟩] =
      some ⟨true, false, false, true, false, false, false, false⟩) ∧
    ((false : Bool) = (false || false || false || false) ∧
     ((false : Bool) = true → (false : Bool) = true) ∧
     ((false : Bool) = false →
       (false : Bool) = false ∧ (false : Bool) = false ∧
       (false : Bool) = false ∧ (false : Bool) = false ∧
       (true : Bool) = (false ||
         ([(⟨Result.INFEASIBLE, LPSolstat.OPTIMAL, 0⟩ :
             EnfoStep)].any stepInfeasibleOnly)))) :=
  ⟨rfl, enforceConstraints_spec true false
    [⟨Result.INFEASIBLE, LPSolstat.OPTIMAL, 0⟩]
    ⟨true, false, false, true, false, false, false, false⟩ rfl⟩

/-- C1, counterexample.  A single handler answering `CONSADDED` sets both
`propagateagain` and `solvelpagain` (solve.c:2309-2316) — two of the four
flags, not exactly one; and a call whose only handler answers `FEASIBLE`
sets none of the flags but also leaves `infeasible` clear, although the
claim says infeasibility is raised in that case. -/
theorem enforceConstraints_claim_false :
    (enforceConstraints true false
        [⟨Result.CONSADDED, LPSolstat.OPTIMAL, 0⟩]).map
      EnfoState.propagateagain = some true ∧
    (enforceConstraints true false
        [⟨Result.CONSADDED, LPSolstat.OPTIMAL, 0⟩]).map
      EnfoState.solvelpagain = some true ∧
    (enforceConstraints true false
        [⟨Result.FEASIBLE, LPSolstat.OPTIMAL, 0⟩]).map
      EnfoState.infeasible = some false ∧
    (enforceConstraints true false
        [⟨Result.FEASIBLE, LPSolstat.OPTIMAL, 0⟩]).map
      EnfoState.branched = some false ∧
    (enforceConstraints true false
        [⟨Result.FEASIBLE, LPSolstat.OPTIMAL, 0⟩]).map
      EnfoState.cutoff = some false ∧
    (enforceConstraints true false
        [⟨Result.FEASIBLE, LPSolstat.OPTIMAL, 0⟩]).map
      EnfoState.solvelpagain = some false ∧
    (enforceConstraints true false
        [⟨Result.FEASIBLE, LPSolstat.OPTIMAL, 0⟩]).map
      EnfoState.propagateagain = some false := by
  decide

/-! ### Pseudo-cost update: `updatePseudocost` (solve.c:447-610)

The variables touched by the pass are modelled as a total map from
indices to `PCVar` records; a `SCIP_BOUNDCHG` of the tree path is a
`PCBoundChg` input record.  The epsilon comparators of `set.c`
(`SCIPsetIsLT`/`IsGT`/`IsEQ`, not part of this repository) are modelled
as exact rational comparisons, and an unknown old LP solution value
(`oldlpsolval >= SCIP_INVALID`, solve.c:460-461) as `none`. -/

/-- A problem variable as `updatePseudocost` sees it: the pseudo-cost
flag (0 = `NONE`, 1 = `IGNORE`, 2 = `UPDATE`, solve.c:483-491), its local
bounds, its value in the current LP solution and its two pseudo-cost
accumulators. -/
structure PCVar where
  pseudocostflag : Nat
  lbLocal : ℚ
  ubLocal : ℚ
  lpsol : ℚ
  pscDown : ℚ
  pscUp : ℚ
  deriving DecidableEq, Repr

/-- A bound change of the path between the LP-state fork and the focus
node: the variable it concerns, whether its origin is
`SCIP_BOUNDCHGTYPE_BRANCHING`, and the branching's old LP solution
value. -/
structure PCBoundChg where
  varIdx : Nat
  branching : Bool
  oldlpsolval : Option ℚ
  deriving DecidableEq, Repr

/-- Point update of the variable map. -/
def setPC (vars : Nat → PCVar) (i : Nat) (v : PCVar) : Nat → PCVar :=
  fun j => if j = i then v else vars j

/-- `isPseudocostUpdateValid` (solve.c:449-481): the bound change is
responsible for the dual gain iff the old solution value lies outside
the current bounds and the new solution value sits on the violated
bound. -/
def isPseudocostUpdateValid (v : PCVar) (oldlpsolval : Option ℚ) : Bool :=
  match oldlpsolval with
  | none => false
  | some old =>
    if old < v.lbLocal then decide (v.lpsol = v.lbLocal)
    else if v.ubLocal < old then decide (v.lpsol = v.ubLocal)
    else false

/-- Modelled from the spec: `SCIPvarUpdatePseudocost` (var.c, not part of
this repository) attributes the gain to the variable's pseudo-cost on the
side the solution value moved, selected by the sign of `solvaldelta`. -/
def varUpdatePseudocost (v : PCVar) (solvaldelta : ℚ) (gain : ℚ) : PCVar :=
  if solvaldelta < 0 then { v with pscDown := v.pscDown + gain }
  else { v with pscUp := v.pscUp + gain }

/-- The collection pass (solve.c:540-581): walk the bound changes in path
order, collect each `BRANCHING`-origin change whose variable is still
unmarked, and mark the variable `UPDATE` (2) or `IGNORE` (1) according to
`isPseudocostUpdateValid`; returns the updated variables, the collected
changes in order, and `nvalidupdates`. -/
def collectPass (vars : Nat → PCVar) :
    List PCBoundChg → (Nat → PCVar) × List PCBoundChg × Nat
  | [] => (vars, [], 0)
  | bc :: rest =>
    let v := vars bc.varIdx
    if bc.branching && decide (v.pseudocostflag = 0) then
      if isPseudocostUpdateValid v bc.oldlpsolval then
        let r := collectPass (setPC vars bc.varIdx { v with pseudocostflag := 2 }) rest
        (r.1, bc :: r.2.1, r.2.2 + 1)
      else
        let r := collectPass (setPC vars bc.varIdx { v with pseudocostflag := 1 }) rest
        (r.1, bc :: r.2.1, r.2.2)
    else collectPass vars rest

/-- The update pass (solve.c:583-603): for every collected bound change,
update the variable's pseudo-cost if it is marked `UPDATE`, and reset its
flag to `NONE`. -/
def applyPass (lpgain : ℚ) (vars : Nat → PCVar) :
    List PCBoundChg → Nat → PCVar
  | [] => vars
  | bc :: rest =>
    let v := vars bc.varIdx
    let v2 := if v.pseudocostflag = 2 then
        varUpdatePseudocost v (v.lpsol - bc.oldlpsolval.getD 0) lpgain
      else v
    applyPass lpgain (setPC vars bc.varIdx { v2 with pseudocostflag := 0 }) rest

/-- `updatePseudocost` (solve.c:494-610): the pass runs only when the LP
is solved to optimality and an LP-state fork ancestor exists
(solve.c:514); `weight = nvalidupdates > 0 ? 1.0/nvalidupdates : 1.0` and
`lpgain = MAX((obj - fork.lower) * weight, 0.0)` (solve.c:586-588). -/
def updatePseudocost (solved : Bool) (solstat : LPSolstat) (hasFork : Bool)
    (obj forkLower : ℚ) (vars : Nat → PCVar) (bcs : List PCBoundChg) :
    Nat → PCVar :=
  if solved && decide (solstat = LPSolstat.OPTIMAL) && hasFork then
    let c := collectPass vars bcs
    let weight : ℚ := if 0 < c.2.2 then 1 / (c.2.2 : ℚ) else 1
    let lpgain : ℚ := qmax ((obj - forkLower) * weight) 0
    applyPass lpgain c.1 c.2.1
  else vars

/-- The first `BRANCHING`-origin bound change of the path concerning
variable `i` — the one whose collection the marking discipline of the
collection pass enforces. -/
def firstBranchChg (bcs : List PCBoundChg) (i : Nat) : Option PCBoundChg :=
  bcs.find? (fun bc => bc.branching && decide (bc.varIdx = i))

/-- What the collection pass leaves on variable `i`. -/
def cSpec (vars : Nat → PCVar) (bcs : List PCBoundChg) (i : Nat) : PCVar :=
  match firstBranchChg bcs i with
  | none => vars i
  | some bc =>
    if (vars i).pseudocostflag = 0 then
      { vars i with pseudocostflag :=
          if isPseudocostUpdateValid (vars i) bc.oldlpsolval then 2 else 1 }
    else vars i

/-- The collection pass only re-marks each variable along its first
branching bound change. -/
theorem collect_fun (bcs : List PCBoundChg) :
    ∀ (vars : Nat → PCVar) (i : Nat),
      (collectPass vars bcs).1 i = cSpec vars bcs i := by
  induction bcs with
  | nil => intro vars i; simp [collectPass, cSpec, firstBranchChg]
  | cons b rest ih =>
    intro vars i
    simp only [collectPass]
    split_ifs with h1 h2
    · rw [ih]
      simp only [Bool.and_eq_true, decide_eq_true_eq] at h1
      by_cases hi : b.varIdx = i
      · subst hi
        have hfc : firstBranchChg (b :: rest) b.varIdx = some b := by
          unfold firstBranchChg
          exact List.find?_cons_of_pos rest (by simp [h1.1])
        have hset : setPC vars b.varIdx
            { vars b.varIdx with pseudocostflag := 2 } b.varIdx =
            { vars b.varIdx with pseudocostflag := 2 } := by
          simp [setPC]
        cases hf : firstBranchChg rest b.varIdx with
        | none => simp only [cSpec, hf, hfc, hset]; simp [h1.2, h2]
        | some bc2 => simp only [cSpec, hf, hfc, hset]; simp [h1.2, h2]
      · have hi2 : ¬ i = b.varIdx := fun hx => hi hx.symm
        have hset : setPC vars b.varIdx
            { vars b.varIdx with pseudocostflag := 2 } i = vars i := by
          simp only [setPC]
          rw [if_neg hi2]
        have hfc : firstBranchChg (b :: rest) i = firstBranchChg rest i := by
          unfold firstBranchChg
          exact List.find?_cons_of_neg rest (by simp [hi])
        cases hf : firstBranchChg rest i with
        | none => simp only [cSpec, hf, hfc, hset]
        | some bc2 => simp only [cSpec, hf, hfc, hset]
    · rw [ih]
      simp only [Bool.and_eq_true, decide_eq_true_eq] at h1
      by_cases hi : b.varIdx = i
      · subst hi
        have hfc : firstBranchChg (b :: rest) b.varIdx = some b := by
          unfold firstBranchChg
          exact List.find?_cons_of_pos rest (by simp [h1.1])
        have hset : setPC vars b.varIdx
            { vars b.varIdx with pseudocostflag := 1 } b.varIdx =
            { vars b.varIdx with pseudocostflag := 1 } := by
          simp [setPC]
        cases hf : firstBranchChg rest b.varIdx with
        | none => simp only [cSpec, hf, hfc, hset]; simp [h1.2, h2]
        | some bc2 => simp only [cSpec, hf, hfc, hset]; simp [h1.2, h2]
      · have hi2 : ¬ i = b.varIdx := fun hx => hi hx.symm
        have hset : setPC vars b.varIdx
            { vars b.varIdx with pseudocostflag := 1 } i = vars i := by
          simp only [setPC]
          rw [if_neg hi2]
        have hfc : firstBranchChg (b :: rest) i = firstBranchChg rest i := by
          unfold firstBranchChg
          exact List.find?_cons_of_neg rest (by simp [hi])
        cases hf : firstBranchChg rest i with
        | none => simp only [cSpec, hf, hfc, hset]
        | some bc2 => simp only [cSpec, hf, hfc, hset]
    · rw [ih]
      by_cases hp : (b.branching && decide (b.varIdx = i)) = true
      · simp only [Bool.and_eq_true, decide_eq_true_eq] at hp
        have hfl : ¬ (vars i).pseudocostflag = 0 := by
          intro hc
          apply h1
          rw [hp.2]
          simp [hp.1, hc]
        have hfc : firstBranchChg (b :: rest) i = some b := by
          unfold firstBranchChg
          exact List.find?_cons_of_pos rest (by simp [hp.1, hp.2])
        cases hf : firstBranchChg rest i with
        | none => simp only [cSpec, hf, hfc]; simp [hfl]
        | some bc2 => simp only [cSpec, hf, hfc]; simp [hfl]
      · have hfc : firstBranchChg (b :: rest) i = firstBranchChg rest i := by
          unfold firstBranchChg
          exact List.find?_cons_of_neg rest (by simpa using hp)
        cases hf : firstBranchChg rest i with
        | none => simp only [cSpec, hf, hfc]
        | some bc2 => simp only [cSpec, hf, hfc]

/-- Every collected bound change has branching origin, found its variable
still unmarked, and is the first branching change of its variable. -/
theorem collect_ups_first (bcs : List PCBoundChg) :
    ∀ (vars : Nat → PCVar) (bc : PCBoundChg),
      bc ∈ (collectPass vars bcs).2.1 →
      bc.branching = true ∧ (vars bc.varIdx).pseudocostflag = 0 ∧
        firstBranchChg bcs bc.varIdx = some bc := by
  induction bcs with
  | nil => intro vars bc h; simp [collectPass] at h
  | cons b rest ih =>
    intro vars bc h
    simp only [collectPass] at h
    split_ifs at h with h1 h2
    · simp only [Bool.and_eq_true, decide_eq_true_eq] at h1
      simp only [List.mem_cons] at h
      rcases h with rfl | h
      · refine ⟨h1.1, h1.2, ?_⟩
        unfold firstBranchChg
        exact List.find?_cons_of_pos rest (by simp [h1.1])
      · obtain ⟨k1, k2, k3⟩ := ih _ bc h
        have hne : ¬ bc.varIdx = b.varIdx := by
          intro he
          rw [he] at k2
          simp [setPC] at k2
        have hne2 : ¬ b.varIdx = bc.varIdx := fun hx => hne hx.symm
        simp only [setPC] at k2
        rw [if_neg hne] at k2
        refine ⟨k1, k2, ?_⟩
        unfold firstBranchChg
        rw [List.find?_cons_of_neg rest (by simp [hne2])]
        exact k3
    · simp only [Bool.and_eq_true, decide_eq_true_eq] at h1
      simp only [List.mem_cons] at h
      rcases h with rfl | h
      · refine ⟨h1.1, h1.2, ?_⟩
        unfold firstBranchChg
        exact List.find?_cons_of_pos rest (by simp [h1.1])
      · obtain ⟨k1, k2, k3⟩ := ih _ bc h
        have hne : ¬ bc.varIdx = b.varIdx := by
          intro he
          rw [he] at k2
          simp [setPC] at k2
        have hne2 : ¬ b.varIdx = bc.varIdx := fun hx => hne hx.symm
        simp only [setPC] at k2
        rw [if_neg hne] at k2
        refine ⟨k1, k2, ?_⟩
        unfold firstBranchChg
        rw [List.find?_cons_of_neg rest (by simp [hne2])]
        exact k3
    · obtain ⟨k1, k2, k3⟩ := ih _ bc h
      refine ⟨k1, k2, ?_⟩
      by_cases hp : (b.branching && decide (b.varIdx = bc.varIdx)) = true
      · simp only [Bool.and_eq_true, decide_eq_true_eq] at hp
        exfalso
        apply h1
        rw [hp.2]
        simp [hp.1, k2]
      · unfold firstBranchChg
        rw [List.find?_cons_of_neg rest (by simpa using hp)]
        exact k3

/-- A variable that is unmarked and has a branching bound change on the
path gets collected. -/
theorem collect_ups_mem (bcs : List PCBoundChg) :
    ∀ (vars : Nat → PCVar) (i : Nat) (bc0 : PCBoundChg),
      (vars i).pseudocostflag = 0 → firstBranchChg bcs i = some bc0 →
      ∃ bc ∈ (collectPass vars bcs).2.1, bc.varIdx = i := by
  induction bcs with
  | nil => intro vars i bc0 _ hf; simp [firstBranchChg] at hf
  | cons b rest ih =>
    intro vars i bc0 hfl hf
    simp only [collectPass]
    by_cases hp : (b.branching && decide (b.varIdx = i)) = true
    · have hp' := hp
      simp only [Bool.and_eq_true, decide_eq_true_eq] at hp'
      have h1 : (b.branching &&
          decide ((vars b.varIdx).pseudocostflag = 0)) = true := by
        rw [hp'.2]
        simp [hp'.1, hfl]
      rw [if_pos h1]
      split_ifs with h2
      · exact ⟨b, by simp, hp'.2⟩
      · exact ⟨b, by simp, hp'.2⟩
    · unfold firstBranchChg at hf
      rw [List.find?_cons_of_neg rest (by simpa using hp)] at hf
      split_ifs with h1 h2
      · simp only [Bool.and_eq_true, decide_eq_true_eq] at h1
        have hne : ¬ i = b.varIdx := by
          intro he
          exact hp (by simp [h1.1, he.symm])
        have hfl2 : (setPC vars b.varIdx
            { vars b.varIdx with pseudocostflag := 2 } i).pseudocostflag
            = 0 := by
          simp only [setPC]
          rw [if_neg hne]
          exact hfl
        obtain ⟨bc, hmem, hidx⟩ := ih _ i bc0 hfl2 hf
        exact ⟨bc, by simp [hmem], hidx⟩
      · simp only [Bool.and_eq_true, decide_eq_true_eq] at h1
        have hne : ¬ i = b.varIdx := by
          intro he
          exact hp (by simp [h1.1, he.symm])
        have hfl2 : (setPC vars b.varIdx
            { vars b.varIdx with pseudocostflag := 1 } i).pseudocostflag
            = 0 := by
          simp only [setPC]
          rw [if_neg hne]
          exact hfl
        obtain ⟨bc, hmem, hidx⟩ := ih _ i bc0 hfl2 hf
        exact ⟨bc, by simp [hmem], hidx⟩
      · exact ih _ i bc0 hfl hf

/-- The collected list never names a variable twice. -/
theorem collect_ups_nodup (bcs : List PCBoundChg) :
    ∀ (vars : Nat → PCVar),
      ((collectPass vars bcs).2.1).Pairwise
        (fun a b => a.varIdx ≠ b.varIdx) := by
  induction bcs with
  | nil => intro vars; simp [collectPass]
  | cons b rest ih =>
    intro vars
    simp only [collectPass]
    split_ifs with h1 h2
    · dsimp only
      refine List.Pairwise.cons ?_ (ih _)
      intro bc hmem he
      obtain ⟨_, k2, _⟩ := collect_ups_first rest _ bc hmem
      rw [← he] at k2
      simp [setPC] at k2
    · dsimp only
      refine List.Pairwise.cons ?_ (ih _)
      intro bc hmem he
      obtain ⟨_, k2, _⟩ := collect_ups_first rest _ bc hmem
      rw [← he] at k2
      simp [setPC] at k2
    · exact ih _

/-- The update pass, variable by variable: reset the flag, and add the
gain exactly on the variables marked `UPDATE`. -/
theorem applyPass_fun (g : ℚ) (ups : List PCBoundChg) :
    ∀ (vars : Nat → PCVar) (i : Nat),
      ups.Pairwise (fun a b => a.varIdx ≠ b.varIdx) →
      applyPass g vars ups i =
        match ups.find? (fun bc => decide (bc.varIdx = i)) with
        | none => vars i
        | some bc =>
          { (if (vars i).pseudocostflag = 2 then
              varUpdatePseudocost (vars i)
                ((vars i).lpsol - bc.oldlpsolval.getD 0) g
            else vars i) with pseudocostflag := 0 } := by
  induction ups with
  | nil => intro vars i _; simp [applyPass]
  | cons b rest ih =>
    intro vars i hnd
    have hnd' : rest.Pairwise (fun a b => a.varIdx ≠ b.varIdx) :=
      List.Pairwise.of_cons hnd
    have hhead : ∀ bc ∈ rest, b.varIdx ≠ bc.varIdx :=
      fun bc hb => List.rel_of_pairwise_cons hnd hb
    simp only [applyPass]
    rw [ih _ i hnd']
    by_cases hi : b.varIdx = i
    · subst hi
      have hrest : rest.find? (fun bc => decide (bc.varIdx = b.varIdx))
          = none := by
        rw [List.find?_eq_none]
        intro bc hmem
        simp only [decide_eq_true_eq]
        intro he
        exact hhead bc hmem he.symm
      have hfcons : (b :: rest).find?
          (fun bc => decide (bc.varIdx = b.varIdx)) = some b :=
        List.find?_cons_of_pos rest (by simp)
      simp only [hrest, hfcons]
      simp [setPC]
    · have hi2 : ¬ i = b.varIdx := fun hx => hi hx.symm
      have hsetne : ∀ (w : PCVar), setPC vars b.varIdx w i = vars i := by
        intro w
        simp only [setPC]
        rw [if_neg hi2]
      have hfcons : (b :: rest).find? (fun bc => decide (bc.varIdx = i))
          = rest.find? (fun bc => decide (bc.varIdx = i)) :=
        List.find?_cons_of_neg rest (by simp [hi])
      cases hf : rest.find? (fun bc => decide (bc.varIdx = i)) with
      | none => simp only [hf, hfcons, hsetne]
      | some bc2 => simp only [hf, hfcons, hsetne]

set_option maxHeartbeats 1000000 in
/-- C5.  After the node's initial LP was solved to optimality with an
existing LP-state fork ancestor, and with all pseudo-cost flags clear at
entry: each variable's first branching-origin bound change, when
`isPseudocostUpdateValid` holds for it (it is marked `UPDATE`), adds the
gain `w * max(0, lp_obj − fork.lower)` to the variable's pseudo-cost on
the side its solution value moved, with the uniform weight
`w = 1/nvalidupdates` when `nvalidupdates > 0` and `w = 1` otherwise;
every other variable — including those marked `IGNORE` — is left with its
pseudo-costs unchanged, and every flag ends `NONE`. -/
theorem updatePseudocost_spec (obj forkLower : ℚ) (vars : Nat → PCVar)
    (bcs : List PCBoundChg)
    (hflags : ∀ i, (vars i).pseudocostflag = 0) :
    ∀ i, updatePseudocost true LPSolstat.OPTIMAL true obj forkLower vars bcs i =
      match firstBranchChg bcs i with
      | none => vars i
      | some bc =>
        if isPseudocostUpdateValid (vars i) bc.oldlpsolval then
          { varUpdatePseudocost (vars i)
              ((vars i).lpsol - bc.oldlpsolval.getD 0)
              ((if 0 < (collectPass vars bcs).2.2 then
                  1 / (((collectPass vars bcs).2.2 : ℚ)) else 1) *
                qmax 0 (obj - forkLower))
            with pseudocostflag := 0 }
        else vars i := by
  intro i
  have hw : (0 : ℚ) <
      (if 0 < (collectPass vars bcs).2.2 then
        1 / (((collectPass vars bcs).2.2 : ℚ)) else 1) := by
    split_ifs with h
    · positivity
    · norm_num
  have hgain : qmax ((obj - forkLower) *
      (if 0 < (collectPass vars bcs).2.2 then
        1 / (((collectPass vars bcs).2.2 : ℚ)) else 1)) 0 =
      (if 0 < (collectPass vars bcs).2.2 then
        1 / (((collectPass vars bcs).2.2 : ℚ)) else 1) *
        qmax 0 (obj - forkLower) := by
    generalize (if 0 < (collectPass vars bcs).2.2 then
      1 / (((collectPass vars bcs).2.2 : ℚ)) else 1) = w at hw ⊢
    unfold qmax
    split_ifs with a1 a2 a3 <;> nlinarith
  simp only [updatePseudocost]
  rw [if_pos (show (true && decide True && true) = true by decide)]
  rw [hgain]
  rw [applyPass_fun _ _ _ i (collect_ups_nodup bcs vars)]
  cases hf : firstBranchChg bcs i with
  | none =>
    have hnone : ((collectPass vars bcs).2.1).find?
        (fun bc => decide (bc.varIdx = i)) = none := by
      rw [List.find?_eq_none]
      intro bc hmem
      simp only [decide_eq_true_eq]
      intro he
      obtain ⟨_, _, k3⟩ := collect_ups_first bcs vars bc hmem
      rw [he] at k3
      rw [hf] at k3
      exact absurd k3 (by simp)
    simp only [hnone]
    rw [collect_fun bcs vars i]
    simp [cSpec, hf]
  | some bc0 =>
    obtain ⟨bc, hmem, hidx⟩ :=
      collect_ups_mem bcs vars i bc0 (hflags i) hf
    have hsome : ((collectPass vars bcs).2.1).find?
        (fun bc => decide (bc.varIdx = i)) ≠ none := by
      intro hcn
      rw [List.find?_eq_none] at hcn
      exact hcn bc hmem (by simp [hidx])
    cases hfind : ((collectPass vars bcs).2.1).find?
        (fun bc => decide (bc.varIdx = i)) with
    | none => exact absurd hfind hsome
    | some bcF =>
      have hmemF := List.mem_of_find?_eq_some hfind
      have hidxF : bcF.varIdx = i := by
        have := List.find?_some hfind
        simpa using this
      obtain ⟨_, _, k3⟩ := collect_ups_first bcs vars bcF hmemF
      rw [hidxF, hf] at k3
      have hbcF : bcF = bc0 := by
        have hx := k3
        simp only [Option.some.injEq] at hx
        exact hx.symm
      subst hbcF
      by_cases hval : isPseudocostUpdateValid (vars i) bcF.oldlpsolval = true
      · have hcoll : (collectPass vars bcs).1 i =
            { vars i with pseudocostflag := 2 } := by
          rw [collect_fun bcs vars i]
          simp [cSpec, hf, hflags i, hval]
        simp only [hfind, hcoll]
        rw [if_pos hval]
        unfold varUpdatePseudocost
        split_ifs <;> simp
      · have hval' : isPseudocostUpdateValid (vars i) bcF.oldlpsolval
            = false := by
          cases hx : isPseudocostUpdateValid (vars i) bcF.oldlpsolval
          · rfl
          · exact absurd hx hval
        have hcoll : (collectPass vars bcs).1 i =
            { vars i with pseudocostflag := 1 } := by
          rw [collect_fun bcs vars i]
          simp [cSpec, hf, hflags i, hval']
        simp only [hfind, hcoll]
        have h0 := hflags i
        cases hvi : vars i with
        | mk f lb ub sol pd pu =>
          rw [hvi] at h0
          simp only at h0
          subst h0
          rw [hvi] at hval'
          simp [hvi, hval']

/-- Witness variable for the pseudo-cost update: bounds `[0, 1]`, current
LP value on the upper bound, old branching value `2` above it. -/
def pcVarW : PCVar :=
  { pseudocostflag := 0, lbLocal := 0, ubLocal := 1, lpsol := 1,
    pscDown := 0, pscUp := 0 }

/-- Witness bound change: a branching change on variable 0 with old LP
solution value 2. -/
def pcBcW : PCBoundChg :=
  { varIdx := 0, branching := true, oldlpsolval := some 2 }

/-- Witness for `updatePseudocost_spec` at one variable and one
branching bound change. -/
theorem updatePseudocost_spec_witness :
    updatePseudocost true LPSolstat.OPTIMAL true 5 0
        (fun _ => pcVarW) [pcBcW] 0 =
      match firstBranchChg [pcBcW] 0 with
      | none => pcVarW
      | some bc =>
        if isPseudocostUpdateValid pcVarW bc.oldlpsolval then
          { varUpdatePseudocost pcVarW
              (pcVarW.lpsol - bc.oldlpsolval.getD 0)
              ((if 0 < (collectPass (fun _ => pcVarW) [pcBcW]).2.2 then
                  1 / (((collectPass (fun _ => pcVarW) [pcBcW]).2.2 : ℚ))
                else 1) *
                qmax 0 ((5 : ℚ) - 0))
            with pseudocostflag := 0 }
        else pcVarW :=
  updatePseudocost_spec 5 0 (fun _ => pcVarW) [pcBcW] (fun _ => rfl) 0

/-! ### The node solver: `solveNode` (solve.c:2498-3103)

The node solving loop is modelled with one `NodeIterExt` input record per
iteration carrying the outcomes of the external collaborators
(propagators, heuristics, relaxators, the LP solver, branching rules) and
the tree-path cutoff checks.  `applyBounding` (solve.c:1883-1932),
`applyCuts` (solve.c:2414-2451) and `updateLoopStatus` (solve.c:2455-2494)
are translated from the source; the focus node's lower bound is a
rational plus an infinity flag, and the epsilon comparator `SCIPsetIsGE`
of the bounding check is modelled as the exact comparison (the
`misc_exactsolve` branch of the same check is exact in the source).
`SCIPsepastoreApplyCuts`/`SCIPsepastoreClearCuts` (sepastore.c, not part
of this repository) leave the separation store empty, as their contract
states.  A `SCIP_LPERROR` / `SCIP_INVALIDRESULT` return is an
`Except.error`. -/

/-- Fatal returns of `solveNode`. -/
inductive NodeFatal where
  | lpError
  | invalidResult
  deriving DecidableEq, Repr

/-- `MAXNLPERRORS` (solve.c:58): maximal number of LP error loops in a
single node. -/
def MAXNLPERRORS : Nat := 10

/-- Static parameters of the node solve. -/
structure NodeParams where
  exactsolve : Bool
  cutoffbound : ℚ
  ncontvars : Nat
  nactivepricers : Nat
  hasLP0 : Bool
  initResolveLperror : Bool
  lower0 : ℚ
  deriving DecidableEq, Repr

/-- Out-flags of one `solveNodeRelax` call together with the cuts it left
in the separation store and the domain-change flag its `applyCuts` call
sees. -/
structure RelaxOut where
  cutoff : Bool
  prop : Bool
  solvelp : Bool
  solverelax : Bool
  addedCuts : Nat
  domChg : Bool
  deriving DecidableEq, Repr

/-- External inputs of one iteration of the node solving loop.  The
`pobjN` fields are the pseudo objective values the successive
`applyBounding` calls read; the `pathCutoffUN`, `repropagateN` and
`relaxUnsolvedN` fields feed the three `updateLoopStatus` calls; the
tree-path cutoff checks adjacent to a block are folded into that block's
cutoff input. -/
structure NodeIterExt where
  pobj1 : ℚ
  pobj2 : ℚ
  pobj3 : ℚ
  pobj4 : ℚ
  pobj5 : ℚ
  pobj6 : ℚ
  pobj7 : ℚ
  pobj8 : ℚ
  propCutoff : Bool
  propUnflushed : Bool
  propBoundChgs : Bool
  heurProp1 : Bool
  relax1 : RelaxOut
  relax2 : RelaxOut
  lpCutoff : Bool
  lpUnbounded : Bool
  lpLperror : Bool
  lpPricingaborted : Bool
  lpSolstat : LPSolstat
  exactNoCands : Bool
  treeHasNodes : Bool
  resolvelperror : Bool
  foundsol : Bool
  solutionChanged : Bool
  enfoSteps : List EnfoStep
  enfoNCuts : Nat
  enfoDomChg : Bool
  nlpcands : Nat
  branchResult : Result
  branchNCuts : Nat
  branchDomChg : Bool
  limitHit : Bool
  pathCutoffU1 : Bool
  pathCutoffU2 : Bool
  pathCutoffU3 : Bool
  repropagate1 : Bool
  repropagate2 : Bool
  repropagate3 : Bool
  relaxUnsolved1 : Bool
  relaxUnsolved2 : Bool
  relaxUnsolved3 : Bool
  immRestart : Bool
  deriving DecidableEq, Repr

/-- The state of `solveNode`: the out-flags, the loop flags of
solve.c:2610-2615, the per-iteration locals of solve.c:2618-2623, the LP
error counter, the separation store size, and the focus node's lower
bound (`lowerInf` marks `+infinity`). -/
structure NodeState where
  cutoff : Bool
  unbounded : Bool
  infeasible : Bool
  restart : Bool
  branched : Bool
  pricingaborted : Bool
  forcedlpsolve : Bool
  focusnodehaslp : Bool
  solverelaxagain : Bool
  solvelpagain : Bool
  propagateagain : Bool
  solverelax : Bool
  solvelp : Bool
  propagate : Bool
  forcedenforcement : Bool
  lperror : Bool
  nlperrors : Nat
  ncuts : Nat
  lower : ℚ
  lowerInf : Bool
  deriving DecidableEq, Repr

/-- `applyBounding` (solve.c:1883-1932): update the focus node's lower
bound with the pseudo objective value and cut the node off when it
reaches the cutoff bound (setting the lower bound to infinity). -/
def applyBounding (P : NodeParams) (st : NodeState) (pobj : ℚ) : NodeState :=
  if st.cutoff then st
  else
    let lower := qmax st.lower pobj
    if st.lowerInf || decide (P.cutoffbound ≤ lower) then
      { st with lower := lower, lowerInf := true, cutoff := true }
    else { st with lower := lower }

/-- `applyCuts` (solve.c:2414-2451): clear the store on a cutoff,
otherwise apply pending cuts (emptying the store, requesting an LP
re-solve, and repropagating when domains changed). -/
def applyCuts (st : NodeState) (domChg : Bool) : NodeState :=
  if st.cutoff then { st with ncuts := 0 }
  else if 0 < st.ncuts then
    { st with ncuts := 0, propagateagain := st.propagateagain || domChg,
              solvelpagain := true }
  else st

/-- `updateLoopStatus` (solve.c:2455-2494). -/
def updateLoopStatus (st : NodeState) (pathCutoff reprop relaxUnsolved : Bool) :
    NodeState :=
  let st := { st with cutoff := st.cutoff || pathCutoff }
  if st.branched then
    { st with propagateagain := false, solverelaxagain := false }
  else
    { st with propagateagain := st.propagateagain || reprop,
              solverelaxagain := st.solverelaxagain || relaxUnsolved }

/-- Iteration steps before the LP block (solve.c:2618-2697): move the
`…again` flags into the loop locals, apply bounding, propagate domains,
run the after-propagation heuristics, and solve the non-negative-priority
relaxations. -/
def nodePhase1 (P : NodeParams) (st : NodeState) (e : NodeIterExt) : NodeState :=
  let st := { st with lperror := false,
                      solverelax := st.solverelaxagain, solverelaxagain := false,
                      solvelp := st.solvelpagain, solvelpagain := false,
                      propagate := st.propagateagain, propagateagain := false,
                      forcedenforcement := false }
  let st := applyBounding P st e.pobj1
  let st := if st.propagate && !st.cutoff then
      applyBounding P
        { st with cutoff := st.cutoff || e.propCutoff,
                  solvelp := st.solvelp || e.propUnflushed,
                  solverelax := st.solverelax || e.propBoundChgs } e.pobj2
    else st
  let st := if !st.cutoff then
      { st with propagateagain := st.propagateagain || e.heurProp1 }
    else st
  if st.solverelax && !st.cutoff then
    applyBounding P
      (applyCuts
        { st with cutoff := st.cutoff || e.relax1.cutoff,
                  propagateagain := st.propagateagain || e.relax1.prop,
                  solvelpagain := st.solvelpagain || e.relax1.solvelp,
                  solverelaxagain := st.solverelaxagain || e.relax1.solverelax,
                  ncuts := e.relax1.addedCuts } e.relax1.domChg) e.pobj3
  else st

/-- The LP block (solve.c:2697-2761): call `solveNodeLP`, recover an LP
error by downgrading the node to a pseudo node — fatal under
`forcedlpsolve` (solve.c:2715-2720) —, switch to the pseudo solution on a
time/iteration limit, handle the exact-solve unresolved infeasibility
(fatal when every variable is fixed but continuous variables remain,
solve.c:2740-2747), and apply bounding. -/
def lpBlock (P : NodeParams) (st : NodeState) (e : NodeIterExt) :
    Except NodeFatal NodeState :=
  if st.solvelp && !st.cutoff && st.focusnodehaslp then
    let st1 : NodeState :=
      { st with cutoff := st.cutoff || e.lpCutoff,
                unbounded := st.unbounded || e.lpUnbounded,
                pricingaborted := e.lpPricingaborted,
                lperror := e.lpLperror }
    if st1.lperror && st1.forcedlpsolve then Except.error NodeFatal.lpError
    else
      let st2 := if st1.lperror then
          { st1 with focusnodehaslp := false, nlperrors := st1.nlperrors + 1 }
        else st1
      let st3 := if e.lpSolstat = LPSolstat.TIMELIMIT ∨
          e.lpSolstat = LPSolstat.ITERLIMIT then
          { st2 with focusnodehaslp := false, forcedenforcement := true }
        else st2
      if !st3.cutoff && !st3.lperror && P.exactsolve &&
          decide (e.lpSolstat = LPSolstat.INFEASIBLE) && !st3.lowerInf &&
          decide (st3.lower < P.cutoffbound) then
        if e.exactNoCands then Except.error NodeFatal.lpError
        else Except.ok (applyBounding P
          { st3 with focusnodehaslp := false } e.pobj4)
      else Except.ok (applyBounding P st3 e.pobj4)
  else Except.ok st

/-- Steps between the LP block and the `lp->resolvelperror` check
(solve.c:2763-2807): negative-priority relaxations, the first
`updateLoopStatus`, and the after-LP-loop heuristics with bounding. -/
def nodePhase2 (P : NodeParams) (st : NodeState) (e : NodeIterExt) : NodeState :=
  let st := if st.solverelax && !st.cutoff then
      applyBounding P
        (applyCuts
          { st with cutoff := st.cutoff || e.relax2.cutoff,
                    propagateagain := st.propagateagain || e.relax2.prop,
                    solvelpagain := st.solvelpagain || e.relax2.solvelp,
                    solverelaxagain := st.solverelaxagain || e.relax2.solverelax,
                    ncuts := e.relax2.addedCuts } e.relax2.domChg) e.pobj5
    else st
  let st := updateLoopStatus st e.pathCutoffU1 e.repropagate1 e.relaxUnsolved1
  if !st.cutoff || e.treeHasNodes then applyBounding P st e.pobj6 else st

/-- The `lp->resolvelperror` check (solve.c:2809-2824): one more local
recovery by downgrading to a pseudo node, fatal under `forcedlpsolve`. -/
def resolveBlock (st : NodeState) (e : NodeIterExt) :
    Except NodeFatal NodeState :=
  if e.resolvelperror then
    if st.forcedlpsolve then Except.error NodeFatal.lpError
    else Except.ok
      { st with focusnodehaslp := false, nlperrors := st.nlperrors + 1 }
  else Except.ok st

/-- Steps before enforcement (solve.c:2826-2857): re-solve everything if
a solution was found, and clear `branched`. -/
def nodePhase3 (st : NodeState) (e : NodeIterExt) : NodeState :=
  let st := if e.foundsol then
      { st with propagateagain := true, solvelpagain := true,
                solverelaxagain := true }
    else st
  { st with branched := false }

/-- The enforcement block (solve.c:2857-2890): reset `infeasible` when
the solution changed, run `enforceConstraints` (reusing its model above),
copy its out-flags, then apply cuts, bounding and `updateLoopStatus`. -/
def enfoBlock (P : NodeParams) (st : NodeState) (e : NodeIterExt) :
    Except NodeFatal NodeState :=
  if !st.cutoff && !st.solverelaxagain && !st.solvelpagain &&
      !st.propagateagain then
    let st0 := if e.solutionChanged then { st with infeasible := false } else st
    match enforceConstraints st0.focusnodehaslp st0.infeasible e.enfoSteps with
    | none => Except.error NodeFatal.invalidResult
    | some es =>
      let st1 : NodeState :=
        { st0 with branched := es.branched, cutoff := es.cutoff,
                   infeasible := es.infeasible,
                   propagateagain := es.propagateagain,
                   solvelpagain := es.solvelpagain,
                   solverelaxagain := es.solverelaxagain,
                   focusnodehaslp := es.hasLP,
                   ncuts := e.enfoNCuts }
      Except.ok (updateLoopStatus
        (applyBounding P (applyCuts st1 e.enfoDomChg) e.pobj7)
        e.pathCutoffU2 e.repropagate2 e.relaxUnsolved2)
  else Except.ok st

/-- The pseudo-branching preparation for aborted pricing
(solve.c:2892-2906). -/
def pricingFixup (st : NodeState) : NodeState :=
  if st.pricingaborted && !st.infeasible && !st.cutoff then
    { st with infeasible := true }
  else st

/-- The branching block (solve.c:2908-3056): when the infeasibility was
not resolved, branch on the LP, external or pseudo solution and handle
the result; `DIDNOTRUN` with unfixed continuous variables or unknown
pricers either creates a copy-child under a limit, aborts on
`pricingaborted`, or forces an LP solve (`forcedlpsolve := true`,
solve.c:3028-3032). -/
def branchBlock (P : NodeParams) (st : NodeState) (e : NodeIterExt) :
    Except NodeFatal NodeState :=
  let st := { st with forcedlpsolve := false }
  let post : NodeState → Except NodeFatal NodeState := fun st2 =>
    Except.ok (updateLoopStatus
      (applyBounding P (applyCuts st2 e.branchDomChg) e.pobj8)
      e.pathCutoffU3 e.repropagate3 e.relaxUnsolved3)
  if st.infeasible && !st.cutoff && !st.unbounded && !st.solverelaxagain &&
      !st.solvelpagain && !st.propagateagain && !st.branched then
    let nlpcands := if st.focusnodehaslp then e.nlpcands else 0
    match e.branchResult with
    | Result.CUTOFF => post { st with cutoff := true }
    | Result.CONSADDED =>
        if 0 < nlpcands then Except.error NodeFatal.invalidResult
        else post { st with propagateagain := true, solvelpagain := true,
                            solverelaxagain := true }
    | Result.REDUCEDDOM =>
        post { st with propagateagain := true, solvelpagain := true,
                       solverelaxagain := true }
    | Result.SEPARATED =>
        post { st with solvelpagain := true, solverelaxagain := true,
                       ncuts := e.branchNCuts }
    | Result.BRANCHED => post { st with branched := true }
    | Result.DIDNOTRUN =>
        if P.ncontvars = 0 && P.nactivepricers = 0 then
          post { st with cutoff := true }
        else if e.limitHit then post { st with branched := true }
        else if st.pricingaborted then Except.error NodeFatal.invalidResult
        else post { st with focusnodehaslp := true, solvelpagain := true,
                            forcedlpsolve := true }
    | _ => Except.error NodeFatal.invalidResult
  else Except.ok st

/-- One iteration of the node solving loop (solve.c:2616-3064). -/
def nodeIter (P : NodeParams) (st : NodeState) (e : NodeIterExt) :
    Except NodeFatal NodeState :=
  match lpBlock P (nodePhase1 P st e) e with
  | Except.error f => Except.error f
  | Except.ok sta =>
    match resolveBlock (nodePhase2 P sta e) e with
    | Except.error f => Except.error f
    | Except.ok stb =>
      match enfoBlock P (nodePhase3 stb e) e with
      | Except.error f => Except.error f
      | Except.ok stc =>
        match branchBlock P (pricingFixup stc) e with
        | Except.error f => Except.error f
        | Except.ok std2 =>
          Except.ok { std2 with restart := std2.restart || e.immRestart }

/-- The loop guard (solve.c:2616). -/
def nodeGuard (st : NodeState) : Bool :=
  !st.cutoff && (st.solverelaxagain || st.solvelpagain || st.propagateagain) &&
    decide (st.nlperrors < MAXNLPERRORS) && !st.restart

/-- Result of running the loop on a trace: a fatal return, or the exit
state together with whether the guard actually failed (`finished`). -/
inductive NodeLoopRes where
  | fatal (f : NodeFatal)
  | out (st : NodeState) (finished : Bool)
  deriving DecidableEq, Repr

/-- The node solving loop over an input trace. -/
def nodeLoop (P : NodeParams) (st : NodeState) :
    List NodeIterExt → NodeLoopRes
  | [] => NodeLoopRes.out st (!nodeGuard st)
  | e :: rest =>
    if nodeGuard st then
      match nodeIter P st e with
      | Except.error f => NodeLoopRes.fatal f
      | Except.ok st2 => nodeLoop P st2 rest
    else NodeLoopRes.out st true

/-- Outcome of `solveNode`. -/
inductive NodeOutcome where
  | fatal (f : NodeFatal)
  | ok (st : NodeState)
  deriving DecidableEq, Repr

/-- The post-loop processing (solve.c:3066-3101): the `MAXNLPERRORS`
fatal check, the final restart update, and the cutoff exit block that
sets the lower bound to infinity, raises `infeasible` and clears
`restart`. -/
def postLoop (finalRestart : Bool) (st : NodeState) : NodeOutcome :=
  if MAXNLPERRORS ≤ st.nlperrors then NodeOutcome.fatal NodeFatal.lpError
  else
    let st := { st with restart := st.restart || finalRestart }
    if st.cutoff then
      NodeOutcome.ok { st with lowerInf := true, infeasible := true,
                               restart := false }
    else NodeOutcome.ok st

/-- The initial state of the loop (solve.c:2552-2615): all out-flags
clear, the three `…again` flags set, no LP errors, an empty separation
store, and the focus-LP decision possibly reverted by a diving LP error
(solve.c:2591-2593). -/
def nodeInit (P : NodeParams) : NodeState :=
  { cutoff := false, unbounded := false, infeasible := false,
    restart := false, branched := false, pricingaborted := false,
    forcedlpsolve := false,
    focusnodehaslp := P.hasLP0 && !P.initResolveLperror,
    solverelaxagain := true, solvelpagain := true, propagateagain := true,
    solverelax := false, solvelp := false, propagate := false,
    forcedenforcement := false, lperror := false,
    nlperrors := 0, ncuts := 0, lower := P.lower0, lowerInf := false }

/-- `solveNode`: run the loop and the post-loop processing; `none` when
the input trace ends before the loop guard fails. -/
def solveNode (P : NodeParams) (finalRestart : Bool)
    (trace : List NodeIterExt) : Option NodeOutcome :=
  match nodeLoop P (nodeInit P) trace with
  | NodeLoopRes.fatal f => some (NodeOutcome.fatal f)
  | NodeLoopRes.out st true => some (postLoop finalRestart st)
  | NodeLoopRes.out _ false => none

/-- `applyBounding` never touches the separation store. -/
theorem applyBounding_ncuts (P : NodeParams) (st : NodeState) (pobj : ℚ) :
    (applyBounding P st pobj).ncuts = st.ncuts := by
  simp only [applyBounding]
  split_ifs <;> rfl

/-- `applyBounding` never touches the error counter. -/
theorem applyBounding_nlperrors (P : NodeParams) (st : NodeState) (pobj : ℚ) :
    (applyBounding P st pobj).nlperrors = st.nlperrors := by
  simp only [applyBounding]
  split_ifs <;> rfl

/-- `applyBounding` never touches the focus-LP flag. -/
theorem applyBounding_haslp (P : NodeParams) (st : NodeState) (pobj : ℚ) :
    (applyBounding P st pobj).focusnodehaslp = st.focusnodehaslp := by
  simp only [applyBounding]
  split_ifs <;> rfl

/-- After `applyCuts` the separation store is always empty. -/
theorem applyCuts_zero (st : NodeState) (d : Bool) :
    (applyCuts st d).ncuts = 0 := by
  unfold applyCuts
  split_ifs with h1 h2
  · rfl
  · rfl
  · simp only [not_lt, Nat.le_zero] at h2
    exact h2

/-- `updateLoopStatus` never touches the separation store. -/
theorem updateLoopStatus_ncuts (st : NodeState) (a b c : Bool) :
    (updateLoopStatus st a b c).ncuts = st.ncuts := by
  simp only [updateLoopStatus]
  split_ifs <;> rfl

/-- `updateLoopStatus` never touches the error counter. -/
theorem updateLoopStatus_nlperrors (st : NodeState) (a b c : Bool) :
    (updateLoopStatus st a b c).nlperrors = st.nlperrors := by
  simp only [updateLoopStatus]
  split_ifs <;> rfl

/-- Phase 1 keeps the store-empty invariant. -/
theorem nodePhase1_ncuts (P : NodeParams) (st : NodeState) (e : NodeIterExt)
    (h : st.ncuts = 0) : (nodePhase1 P st e).ncuts = 0 := by
  simp only [nodePhase1]
  split_ifs <;>
    simp [applyBounding_ncuts, applyCuts_zero, h]

/-- The LP block never touches the separation store. -/
theorem lpBlock_ncuts (P : NodeParams) (st : NodeState) (e : NodeIterExt)
    (st2 : NodeState) (h : lpBlock P st e = Except.ok st2) :
    st2.ncuts = st.ncuts := by
  simp only [lpBlock] at h
  split_ifs at h <;>
    simp only [Except.ok.injEq] at h <;>
    subst h <;>
    simp [applyBounding_ncuts]

/-- Phase 2 keeps the store-empty invariant. -/
theorem nodePhase2_ncuts (P : NodeParams) (st : NodeState) (e : NodeIterExt)
    (h : st.ncuts = 0) : (nodePhase2 P st e).ncuts = 0 := by
  simp only [nodePhase2]
  split_ifs <;>
    simp [applyBounding_ncuts, applyCuts_zero, updateLoopStatus_ncuts, h]

/-- The resolve-LP-error check never touches the separation store. -/
theorem resolveBlock_ncuts (st : NodeState) (e : NodeIterExt)
    (st2 : NodeState) (h : resolveBlock st e = Except.ok st2) :
    st2.ncuts = st.ncuts := by
  simp only [resolveBlock] at h
  split_ifs at h <;> simp only [Except.ok.injEq] at h <;> subst h <;> rfl

/-- Phase 3 never touches the separation store. -/
theorem nodePhase3_ncuts (st : NodeState) (e : NodeIterExt) :
    (nodePhase3 st e).ncuts = st.ncuts := by
  simp only [nodePhase3]
  split_ifs <;> rfl

/-- The enforcement block keeps the store-empty invariant. -/
theorem enfoBlock_ncuts (P : NodeParams) (st : NodeState) (e : NodeIterExt)
    (st2 : NodeState) (hin : st.ncuts = 0)
    (h : enfoBlock P st e = Except.ok st2) : st2.ncuts = 0 := by
  simp only [enfoBlock] at h
  by_cases hcond : (!st.cutoff && !st.solverelaxagain && !st.solvelpagain &&
      !st.propagateagain) = true
  · rw [if_pos hcond] at h
    by_cases hch : e.solutionChanged = true
    · rw [if_pos hch] at h
      split at h
      all_goals
        first
        | exact Except.noConfusion h
        | (rw [Except.ok.injEq] at h
           subst h
           simp [updateLoopStatus_ncuts, applyBounding_ncuts, applyCuts_zero])
    · rw [if_neg hch] at h
      split at h
      all_goals
        first
        | exact Except.noConfusion h
        | (rw [Except.ok.injEq] at h
           subst h
           simp [updateLoopStatus_ncuts, applyBounding_ncuts, applyCuts_zero])
  · rw [if_neg hcond] at h
    rw [Except.ok.injEq] at h
    subst h
    exact hin

/-- The pricing fixup never touches the separation store. -/
theorem pricingFixup_ncuts (st : NodeState) :
    (pricingFixup st).ncuts = st.ncuts := by
  simp only [pricingFixup]
  split_ifs <;> rfl

/-- The branching block keeps the store-empty invariant. -/
theorem branchBlock_ncuts (P : NodeParams) (st : NodeState) (e : NodeIterExt)
    (st2 : NodeState) (hin : st.ncuts = 0)
    (h : branchBlock P st e = Except.ok st2) : st2.ncuts = 0 := by
  simp only [branchBlock] at h
  by_cases hcond : (st.infeasible && !st.cutoff && !st.unbounded &&
      !st.solverelaxagain && !st.solvelpagain && !st.propagateagain &&
      !st.branched) = true
  · rw [if_pos hcond] at h
    cases hres : e.branchResult <;> rw [hres] at h <;> try dsimp only at h
    all_goals try split_ifs at h
    all_goals
      first
      | exact Except.noConfusion h
      | (rw [Except.ok.injEq] at h
         subst h
         simp [updateLoopStatus_ncuts, applyBounding_ncuts, applyCuts_zero])
  · rw [if_neg hcond] at h
    rw [Except.ok.injEq] at h
    subst h
    exact hin

/-- One loop iteration keeps the store-empty invariant. -/
theorem nodeIter_ncuts (P : NodeParams) (st : NodeState) (e : NodeIterExt)
    (st2 : NodeState) (hin : st.ncuts = 0)
    (h : nodeIter P st e = Except.ok st2) : st2.ncuts = 0 := by
  simp only [nodeIter] at h
  cases h1 : lpBlock P (nodePhase1 P st e) e with
  | error f => rw [h1] at h; exact absurd h (by simp)
  | ok sta =>
    rw [h1] at h
    dsimp only at h
    have ha : sta.ncuts = 0 := by
      rw [lpBlock_ncuts P _ e sta h1]
      exact nodePhase1_ncuts P st e hin
    cases h2 : resolveBlock (nodePhase2 P sta e) e with
    | error f => rw [h2] at h; exact absurd h (by simp)
    | ok stb =>
      rw [h2] at h
      dsimp only at h
      have hb : stb.ncuts = 0 := by
        rw [resolveBlock_ncuts _ e stb h2]
        exact nodePhase2_ncuts P sta e ha
      cases h3 : enfoBlock P (nodePhase3 stb e) e with
      | error f => rw [h3] at h; exact absurd h (by simp)
      | ok stc =>
        rw [h3] at h
        dsimp only at h
        have hc : stc.ncuts = 0 :=
          enfoBlock_ncuts P _ e stc (by rw [nodePhase3_ncuts]; exact hb) h3
        cases h4 : branchBlock P (pricingFixup stc) e with
        | error f => rw [h4] at h; exact absurd h (by simp)
        | ok std2 =>
          rw [h4] at h
          dsimp only at h
          simp only [Except.ok.injEq] at h
          subst h
          have hd : std2.ncuts = 0 :=
            branchBlock_ncuts P _ e std2 (by rw [pricingFixup_ncuts]; exact hc)
              h4
          exact hd

/-- The loop keeps the store-empty invariant up to its exit state. -/
theorem nodeLoop_ncuts (P : NodeParams) (trace : List NodeIterExt) :
    ∀ (st st' : NodeState) (fin : Bool), st.ncuts = 0 →
      nodeLoop P st trace = NodeLoopRes.out st' fin → st'.ncuts = 0 := by
  induction trace with
  | nil =>
    intro st st' fin hin h
    simp only [nodeLoop] at h
    cases h
    exact hin
  | cons e rest ih =>
    intro st st' fin hin h
    simp only [nodeLoop] at h
    split_ifs at h
    · cases h1 : nodeIter P st e with
      | error f => rw [h1] at h; exact absurd h (by simp)
      | ok st2 =>
        rw [h1] at h
        dsimp only at h
        exact ih st2 st' fin (nodeIter_ncuts P st e st2 hin h1) h
    · cases h
      exact hin

set_option maxHeartbeats 1000000 in
/-- C7.  LP numerical errors are recovered locally: (1) an LP error while
`forcedlpsolve` is set makes the node solver return the fatal
`SCIP_LPERROR` (solve.c:2715-2720); (2) otherwise (in a non-exact solve)
the LP block recovers by downgrading the node to a pseudo node
(`SCIPtreeSetFocusNodeLP(tree, FALSE)`) and counting the failure —
`nlperrors` grows by exactly one; (3) a node solve that returns normally
has seen fewer than `MAXNLPERRORS = 10` failures, and (4) when the loop
exits with `nlperrors ≥ MAXNLPERRORS` the node solver returns the fatal
`SCIP_LPERROR` (solve.c:3073-3078). -/
theorem solveNode_lperror_spec :
    (∀ (P : NodeParams) (st : NodeState) (e : NodeIterExt),
      st.solvelp = true → st.cutoff = false → st.focusnodehaslp = true →
      e.lpLperror = true → st.forcedlpsolve = true →
      lpBlock P st e = Except.error NodeFatal.lpError) ∧
    (∀ (P : NodeParams) (st : NodeState) (e : NodeIterExt),
      st.solvelp = true → st.cutoff = false → st.focusnodehaslp = true →
      e.lpLperror = true → st.forcedlpsolve = false → P.exactsolve = false →
      ∃ st2, lpBlock P st e = Except.ok st2 ∧
        st2.nlperrors = st.nlperrors + 1 ∧ st2.focusnodehaslp = false) ∧
    (∀ (P : NodeParams) (fr : Bool) (trace : List NodeIterExt)
        (st2 : NodeState),
      solveNode P fr trace = some (NodeOutcome.ok st2) →
      st2.nlperrors < MAXNLPERRORS) ∧
    (∀ (P : NodeParams) (fr : Bool) (trace : List NodeIterExt)
        (st : NodeState),
      nodeLoop P (nodeInit P) trace = NodeLoopRes.out st true →
      MAXNLPERRORS ≤ st.nlperrors →
      solveNode P fr trace = some (NodeOutcome.fatal NodeFatal.lpError)) := by
  refine ⟨?_, ?_, ?_, ?_⟩
  · intro P st e h1 h2 h3 h4 h5
    simp only [lpBlock]
    rw [if_pos (by simp [h1, h2, h3])]
    rw [if_pos (by simp [h4, h5])]
  · intro P st e h1 h2 h3 h4 h5 h6
    simp only [lpBlock]
    rw [if_pos (by simp [h1, h2, h3])]
    rw [if_neg (by simp [h5])]
    rw [if_neg (by simp [h6])]
    refine ⟨_, rfl, ?_, ?_⟩
    · rw [applyBounding_nlperrors]
      split_ifs <;> simp [h4]
    · rw [applyBounding_haslp]
      split_ifs <;> simp [h4]
  · intro P fr trace st2 h
    simp only [solveNode] at h
    cases hl : nodeLoop P (nodeInit P) trace with
    | fatal f =>
      rw [hl] at h
      simp at h
    | out st fin =>
      rw [hl] at h
      cases fin with
      | false => simp at h
      | true =>
        simp only [Option.some.injEq] at h
        simp only [postLoop] at h
        by_cases hcap : MAXNLPERRORS ≤ st.nlperrors
        · rw [if_pos hcap] at h
          simp at h
        · rw [if_neg hcap] at h
          split_ifs at h
          all_goals simp only [NodeOutcome.ok.injEq] at h
          all_goals subst h
          all_goals simpa using Nat.lt_of_not_le hcap
  · intro P fr trace st hl hcap
    simp only [solveNode]
    rw [hl]
    simp only [postLoop]
    rw [if_pos hcap]

/-- Witness state for the LP-error theorems: an LP iteration about to run
with `forcedlpsolve` set. -/
def nodeStW : NodeState :=
  { cutoff := false, unbounded := false, infeasible := false,
    restart := false, branched := false, pricingaborted := false,
    forcedlpsolve := true, focusnodehaslp := true,
    solverelaxagain := false, solvelpagain := false, propagateagain := false,
    solverelax := false, solvelp := true, propagate := false,
    forcedenforcement := false, lperror := false,
    nlperrors := 0, ncuts := 0, lower := 0, lowerInf := false }

/-- Witness input: the LP solver reports an unresolved numerical error. -/
def nodeIterW : NodeIterExt :=
  { pobj1 := 0, pobj2 := 0, pobj3 := 0, pobj4 := 0, pobj5 := 0, pobj6 := 0,
    pobj7 := 0, pobj8 := 0,
    propCutoff := false, propUnflushed := false, propBoundChgs := false,
    heurProp1 := false,
    relax1 := ⟨false, false, false, false, 0, false⟩,
    relax2 := ⟨false, false, false, false, 0, false⟩,
    lpCutoff := false, lpUnbounded := false, lpLperror := true,
    lpPricingaborted := false, lpSolstat := LPSolstat.NOTSOLVED,
    exactNoCands := false, treeHasNodes := false, resolvelperror := false,
    foundsol := false, solutionChanged := false,
    enfoSteps := [], enfoNCuts := 0, enfoDomChg := false,
    nlpcands := 0, branchResult := Result.DIDNOTRUN, branchNCuts := 0,
    branchDomChg := false, limitHit := false,
    pathCutoffU1 := false, pathCutoffU2 := false, pathCutoffU3 := false,
    repropagate1 := false, repropagate2 := false, repropagate3 := false,
    relaxUnsolved1 := false, relaxUnsolved2 := false,
    relaxUnsolved3 := false, immRestart := false }

/-- Witness parameters: a plain (non-exact) solve. -/
def nodeParamsW : NodeParams :=
  { exactsolve := false, cutoffbound := 100, ncontvars := 1,
    nactivepricers := 0, hasLP0 := true, initResolveLperror := false,
    lower0 := 0 }

/-- Witness for `solveNode_lperror_spec`: the forced LP solve hits the
error and the block aborts with the fatal LP error. -/
theorem solveNode_lperror_spec_witness :
    lpBlock nodeParamsW nodeStW nodeIterW = Except.error NodeFatal.lpError :=
  solveNode_lperror_spec.1 nodeParamsW nodeStW nodeIterW rfl rfl rfl rfl rfl

set_option maxHeartbeats 1000000 in
/-- C8.  Whenever the node solver exits normally with `cutoff` set, the
focus node's lower bound is `+infinity`, `infeasible` is raised,
`restart` is cleared (solve.c:3094-3101), and the separation store is
empty (every block that fills it ends with `applyCuts`, which always
leaves it empty, solve.c:2435-2448). -/
theorem solveNode_cutoff_spec (P : NodeParams) (fr : Bool)
    (trace : List NodeIterExt) (st2 : NodeState)
    (h : solveNode P fr trace = some (NodeOutcome.ok st2))
    (hc : st2.cutoff = true) :
    st2.lowerInf = true ∧ st2.infeasible = true ∧ st2.restart = false ∧
      st2.ncuts = 0 := by
  simp only [solveNode] at h
  cases hl : nodeLoop P (nodeInit P) trace with
  | fatal f => rw [hl] at h; simp at h
  | out st fin =>
    rw [hl] at h
    cases fin with
    | false => simp at h
    | true =>
      have hn : st.ncuts = 0 := nodeLoop_ncuts P trace (nodeInit P) st true rfl hl
      simp only [Option.some.injEq] at h
      simp only [postLoop] at h
      by_cases hcap : MAXNLPERRORS ≤ st.nlperrors
      · rw [if_pos hcap] at h
        simp at h
      · rw [if_neg hcap] at h
        by_cases hco : ({ st with restart := st.restart || fr } :
            NodeState).cutoff = true
        · rw [if_pos hco] at h
          simp only [NodeOutcome.ok.injEq] at h
          subst h
          exact ⟨rfl, rfl, rfl, hn⟩
        · rw [if_neg hco] at h
          simp only [NodeOutcome.ok.injEq] at h
          subst h
          exact absurd hc hco

/-- Witness for `solveNode_cutoff_spec`: a one-iteration run whose
branching rule detects a cutoff. -/
def nodeIterW8 : NodeIterExt :=
  { nodeIterW with lpLperror := false, lpSolstat := LPSolstat.OPTIMAL,
                   solutionChanged := true,
                   enfoSteps := [⟨Result.INFEASIBLE, LPSolstat.OPTIMAL, 0⟩],
                   branchResult := Result.CUTOFF }

/-- The exit state of the witness run: its only iteration's branching
rule detects a cutoff, so the node leaves with the cutoff exit block
applied. -/
def nodeStW8 : NodeState :=
  { cutoff := true, unbounded := false, infeasible := true,
    restart := false, branched := false, pricingaborted := false,
    forcedlpsolve := false, focusnodehaslp := true,
    solverelaxagain := false, solvelpagain := false, propagateagain := false,
    solverelax := true, solvelp := true, propagate := true,
    forcedenforcement := false, lperror := false,
    nlperrors := 0, ncuts := 0, lower := 0, lowerInf := true }

/-- Witness for `solveNode_cutoff_spec` at a concrete run. -/
theorem solveNode_cutoff_spec_witness :
    solveNode nodeParamsW false [nodeIterW8] =
        some (NodeOutcome.ok nodeStW8) ∧ nodeStW8.cutoff = true ∧
      (nodeStW8.lowerInf = true ∧ nodeStW8.infeasible = true ∧
        nodeStW8.restart = false ∧ nodeStW8.ncuts = 0) :=
  ⟨by decide, by decide,
    solveNode_cutoff_spec nodeParamsW false [nodeIterW8] nodeStW8
      (by decide) (by decide)⟩

/-! ### The post-pricing block of `solveNodeLP` (solve.c:2047-2078)

After the price-and-cut loop, when pricing was aborted and the LP stopped
at the objective limit without the node being cut off, the LP is
re-solved with `lp->cutoffbound` temporarily set to infinity and the old
bound reinstalled afterwards.  The bound-free `SCIPlpSolveAndEval` call
(lp.c, not part of this repository) is an input: the solution status and
error flag it produces. -/

/-- Entry values of the block: the out-flags after `priceAndCutLoop`, the
LP state, and the bound-free re-solve's results. -/
structure LPPostIn where
  pricingaborted : Bool
  solstat : LPSolstat
  cutoff : Bool
  lperror : Bool
  cutoffbound : ℚ
  resolveSolstat : LPSolstat
  resolveLperror : Bool
  deriving DecidableEq, Repr

/-- Exit values of the block; `ghostResolveInfinite` records that the
re-solve ran with the LP cutoff bound at infinity. -/
structure LPPostOut where
  cutoff : Bool
  solstat : LPSolstat
  lperror : Bool
  cutoffbound : ℚ
  ghostResolveInfinite : Bool
  deriving DecidableEq, Repr

/-- The block solve.c:2047-2078: under the trigger
`pricingaborted ∧ solstat = OBJLIMIT ∧ ¬cutoff`, save `lp->cutoffbound`,
set it to infinity, re-solve, restore the saved bound, and cut the node
off when the bound-free LP is infeasible. -/
def solveNodeLPPost (i : LPPostIn) : LPPostOut :=
  if i.pricingaborted && decide (i.solstat = LPSolstat.OBJLIMIT) &&
      !i.cutoff then
    let tmpcutoff := i.cutoffbound
    let cutoff2 := if i.resolveSolstat = LPSolstat.INFEASIBLE then true
      else i.cutoff
    { cutoff := cutoff2, solstat := i.resolveSolstat,
      lperror := i.resolveLperror, cutoffbound := tmpcutoff,
      ghostResolveInfinite := true }
  else
    { cutoff := i.cutoff, solstat := i.solstat, lperror := i.lperror,
      cutoffbound := i.cutoffbound, ghostResolveInfinite := false }

/-- C10.  Under the hypotheses mirroring the code's asserts — the
bound-free re-solve succeeds and ends `OPTIMAL` or `INFEASIBLE`
(solve.c:2070-2073), and on entry an aborted pricing comes with an
`OPTIMAL` or `OBJLIMIT` LP or a cut-off node (the price-and-cut loop's
guarantee) — the block re-solves exactly under the trigger
`pricingaborted ∧ solstat = OBJLIMIT ∧ ¬cutoff` with the LP cutoff bound
at infinity, always restores the original `lp->cutoffbound`, and on
return a set `pricingaborted` flag implies the LP status is `OPTIMAL` or
the node is cut off (solve.c:2079). -/
theorem solveNodeLPPost_spec (i : LPPostIn)
    (hres : i.resolveLperror = false)
    (hsol : i.resolveSolstat = LPSolstat.OPTIMAL ∨
      i.resolveSolstat = LPSolstat.INFEASIBLE)
    (hentry : i.pricingaborted = true →
      i.solstat = LPSolstat.OPTIMAL ∨ i.solstat = LPSolstat.OBJLIMIT ∨
        i.cutoff = true) :
    (solveNodeLPPost i).cutoffbound = i.cutoffbound ∧
    (solveNodeLPPost i).ghostResolveInfinite =
      (i.pricingaborted && decide (i.solstat = LPSolstat.OBJLIMIT) &&
        !i.cutoff) ∧
    ((solveNodeLPPost i).ghostResolveInfinite = true →
      (solveNodeLPPost i).lperror = false) ∧
    (i.pricingaborted = true →
      (solveNodeLPPost i).solstat = LPSolstat.OPTIMAL ∨
        (solveNodeLPPost i).cutoff = true) := by
  by_cases htrig : (i.pricingaborted &&
      decide (i.solstat = LPSolstat.OBJLIMIT) && !i.cutoff) = true
  · simp only [solveNodeLPPost]
    rw [if_pos htrig]
    refine ⟨rfl, by simp [htrig], fun _ => hres, fun _ => ?_⟩
    rcases hsol with hs | hs
    · exact Or.inl hs
    · right
      simp [hs]
  · simp only [solveNodeLPPost]
    rw [if_neg htrig]
    refine ⟨rfl, by simp [htrig], fun hg => absurd hg (by simp), fun hpa => ?_⟩
    rcases hentry hpa with hs | hs | hs
    · exact Or.inl hs
    · by_cases hcf : i.cutoff = true
      · exact Or.inr hcf
      · exfalso
        apply htrig
        simp only [Bool.not_eq_true] at hcf
        simp [hpa, hs, hcf]
    · exact Or.inr hs

/-- Witness input for the post-pricing block: aborted pricing with the LP
at the objective limit; the bound-free re-solve ends optimal. -/
def lpPostW : LPPostIn :=
  { pricingaborted := true, solstat := LPSolstat.OBJLIMIT, cutoff := false,
    lperror := false, cutoffbound := 7,
    resolveSolstat := LPSolstat.OPTIMAL, resolveLperror := false }

/-- Witness for `solveNodeLPPost_spec` at the concrete input. -/
theorem solveNodeLPPost_spec_witness :
    (solveNodeLPPost lpPostW).cutoffbound = lpPostW.cutoffbound ∧
    (solveNodeLPPost lpPostW).ghostResolveInfinite =
      (lpPostW.pricingaborted &&
        decide (lpPostW.solstat = LPSolstat.OBJLIMIT) && !lpPostW.cutoff) ∧
    ((solveNodeLPPost lpPostW).ghostResolveInfinite = true →
      (solveNodeLPPost lpPostW).lperror = false) ∧
    (lpPostW.pricingaborted = true →
      (solveNodeLPPost lpPostW).solstat = LPSolstat.OPTIMAL ∨
        (solveNodeLPPost lpPostW).cutoff = true) :=
  solveNodeLPPost_spec lpPostW rfl (Or.inl rfl) (fun _ => Or.inr (Or.inl rfl))

end Scip
